import Mathlib

/-!
Verification of the Reconciliation & Validation Engine of the
AI-Order-Processing-System repository.

The development is a shallow embedding of the Python sources
(priority_api.py, response_handler.py, order_validator.py): strings are
Lean Strings / lists of characters, Python floats and Decimals are
modelled as exact rationals, calendar dates are modelled as proleptic
Gregorian ordinals (the same day numbering as Python date.toordinal),
and functions that catch exceptions and fall back to a default are
modelled as total functions returning that default on the failing paths.
Only the ASCII fragment of the Unicode character classes used by the
sources (regex digit classes, str.strip whitespace) is reproduced; every
input appearing in the theorems below is ASCII.
-/

namespace OrderEngine

/-- The whitespace characters recognised by Python str.strip / str.split
(ASCII fragment). -/
def wsChars : List Char := [' ', '\t', '\n', '\x0d', '\x0b', '\x0c']

/-- ASCII whitespace test. -/
def isWs (c : Char) : Bool := wsChars.contains c

/-- The ten ASCII digits. -/
def digitChars : List Char :=
  ['0', '1', '2', '3', '4', '5', '6', '7', '8', '9']

/-- ASCII digit test (the regex digit class of the sources, restricted to
ASCII). -/
def isDig (c : Char) : Bool := digitChars.contains c

/-- Numeric value of an ASCII digit character. -/
def digitVal (c : Char) : ℕ :=
  match c with
  | '0' => 0 | '1' => 1 | '2' => 2 | '3' => 3 | '4' => 4
  | '5' => 5 | '6' => 6 | '7' => 7 | '8' => 8 | '9' => 9
  | _ => 0

/-- Value of a digit string read in base 10 (leading zeros allowed). -/
def natVal (l : List Char) : ℕ :=
  l.foldl (fun a c => 10 * a + digitVal c) 0

/-- Whether the first list is a leading segment of the second
(Python str.startswith). -/
def listStartsWith : List Char → List Char → Bool
  | [], _ => true
  | _ :: _, [] => false
  | p :: ps, c :: cs => p == c && listStartsWith ps cs

/-- Whether the first list occurs contiguously inside the second
(the Python `in` test on strings). -/
def listHasSub (pat : List Char) : List Char → Bool
  | [] => listStartsWith pat []
  | c :: cs => listStartsWith pat (c :: cs) || listHasSub pat cs

/-- Substring test on strings (Python `in`). -/
def strContains (s pat : String) : Bool := listHasSub pat.data s.data

/-- Split a list at every occurrence of the separator, keeping empty
pieces: the behaviour of Python str.split with an explicit separator. -/
def splitSep (sep : Char) : List Char → List (List Char)
  | [] => [[]]
  | c :: cs =>
    match splitSep sep cs with
    | [] => [[]]
    | h :: t => if c = sep then [] :: h :: t else (c :: h) :: t

/-- Remove leading whitespace (Python str.lstrip). -/
def stripWsLeft (l : List Char) : List Char := l.dropWhile isWs

/-- Remove leading and trailing whitespace (Python str.strip). -/
def stripWs (l : List Char) : List Char :=
  ((l.dropWhile isWs).reverse.dropWhile isWs).reverse

/-- Delete every occurrence of the substring USD, scanning left to right:
the effect of the Python call replacing USD by the empty string in
order_validator.clean_number. -/
def removeUSD : List Char → List Char
  | 'U' :: 'S' :: 'D' :: rest => removeUSD rest
  | c :: cs => c :: removeUSD cs
  | [] => []

/-- Python float() applied to a string containing only digits and
periods: defined exactly when there is at least one digit and at most one
period, in which case the value is the usual decimal reading.  Every
string reaching the float() call in the embedded price extractors has
this shape. -/
def pyFloatDigitsDots (l : List Char) : Option ℚ :=
  if l.any isDig && l.all (fun c => isDig c || c == '.') then
    match splitSep '.' l with
    | [i] => some ((natVal i : ℚ))
    | [i, f] => some ((natVal i : ℚ) + (natVal f : ℚ) / (10 : ℚ) ^ f.length)
    | _ => none
  else none

/-- float() with the ValueError caught and turned into 0.0, and the
empty-string guard of the sources (both paths yield 0). -/
def pyFloatOrZero (l : List Char) : ℚ := (pyFloatDigitsDots l).getD 0

/-- The digit-group grammar of Python int(): nonempty groups of digits
separated by single underscores. -/
def underscoreGroupsOk (l : List Char) : Bool :=
  !l.isEmpty && (splitSep '_' l).all (fun g => !g.isEmpty && g.all isDig)

/-- Python int() applied to a string: surrounding whitespace is ignored,
an optional sign is allowed, and the body must be digits with optional
single underscores between them; None models the ValueError. -/
def pyIntList (l : List Char) : Option ℤ :=
  match stripWs l with
  | '-' :: r =>
    if underscoreGroupsOk r then some (-(natVal (r.filter (· ≠ '_')) : ℤ))
    else none
  | '+' :: r =>
    if underscoreGroupsOk r then some ((natVal (r.filter (· ≠ '_')) : ℤ))
    else none
  | t =>
    if underscoreGroupsOk t then some ((natVal (t.filter (· ≠ '_')) : ℤ))
    else none

/-- Python Decimal() applied to a string, restricted to the plain decimal
forms (optional sign, digits, at most one period) that can reach it in
order_validator.clean_number on the inputs considered here; exponent,
infinity and NaN forms of the full Decimal grammar are not reproduced.
Surrounding whitespace is permitted, as by Decimal.  None models the
InvalidOperation exception. -/
def pyDecimal (l : List Char) : Option ℚ :=
  match stripWs l with
  | '-' :: r => (pyFloatDigitsDots r).map Neg.neg
  | '+' :: r => pyFloatDigitsDots r
  | t => pyFloatDigitsDots t

/-- The character class kept by the regex substitution of the price
extractors, which deletes every character that is not a digit, a period
or a comma. -/
def keepPriceChar (c : Char) : Bool := isDig c || c == '.' || c == ','

/-- Given that the list contains a comma or a period, whether the
rightmost of the two separators is a comma: this is the comparison of
the rfind positions of the two separators in the sources. -/
def rightmostSepIsComma (l : List Char) : Bool :=
  match l.reverse.find? (fun c => c == ',' || c == '.') with
  | some ',' => true
  | _ => false

/-- Replace every comma by a period. -/
def commaToDot (l : List Char) : List Char :=
  l.map (fun c => if c = ',' then '.' else c)

namespace PriorityAPI

/-- PriorityAPIClient._extract_numeric_price (src/priority_api.py lines
942-1009): strip everything but digits, periods and commas, resolve the
decimal separator, and convert with float(); parse failures and empty
input yield 0. -/
def extract_numeric_price (price : String) : ℚ :=
  let cleaned := price.data.filter keepPriceChar
  if cleaned.isEmpty then 0
  else if cleaned.contains ',' && cleaned.contains '.' then
    if rightmostSepIsComma cleaned then
      pyFloatOrZero (commaToDot (cleaned.filter (· ≠ '.')))
    else
      pyFloatOrZero (cleaned.filter (· ≠ ','))
  else if cleaned.contains ',' then
    pyFloatOrZero (commaToDot cleaned)
  else if cleaned.contains '.' then
    let parts := splitSep '.' cleaned
    if parts.length = 2 && (parts.getD 1 []).length ≤ 2 then
      pyFloatOrZero cleaned
    else
      pyFloatOrZero (cleaned.filter (· ≠ '.'))
  else pyFloatOrZero cleaned

/-- PriorityAPIClient._extract_numeric_quantity (src/priority_api.py
lines 931-940): the first contiguous run of digits, as an integer;
0 when there is none. -/
def extract_numeric_quantity (quantity : String) : ℕ :=
  let run := (quantity.data.dropWhile (fun c => !isDig c)).takeWhile isDig
  if run.isEmpty then 0 else natVal run

end PriorityAPI

namespace ResponseHandler

/-- ResponseHandler._extract_numeric_price (src/response_handler.py lines
388-478).  Identical to the priority_api variant except in the
comma-only branch, where a single comma followed by exactly three digits
is read as a thousands separator when the integer part has at most three
digits and as a decimal separator otherwise. -/
def extract_numeric_price (price : String) : ℚ :=
  let cleaned := price.data.filter keepPriceChar
  if cleaned.isEmpty then 0
  else if cleaned.contains ',' && cleaned.contains '.' then
    if rightmostSepIsComma cleaned then
      pyFloatOrZero (commaToDot (cleaned.filter (· ≠ '.')))
    else
      pyFloatOrZero (cleaned.filter (· ≠ ','))
  else if cleaned.contains ',' then
    let parts := splitSep ',' cleaned
    if parts.length = 2 && (parts.getD 1 []).length ≤ 2 then
      pyFloatOrZero (commaToDot cleaned)
    else if parts.length = 2 && (parts.getD 1 []).length = 3 then
      if (parts.getD 0 []).length ≤ 3 then
        pyFloatOrZero (cleaned.filter (· ≠ ','))
      else
        pyFloatOrZero (commaToDot cleaned)
    else
      pyFloatOrZero (cleaned.filter (· ≠ ','))
  else if cleaned.contains '.' then
    let parts := splitSep '.' cleaned
    if parts.length = 2 && (parts.getD 1 []).length ≤ 2 then
      pyFloatOrZero cleaned
    else
      pyFloatOrZero (cleaned.filter (· ≠ '.'))
  else pyFloatOrZero cleaned

/-- ResponseHandler._extract_numeric_quantity (src/response_handler.py
lines 375-386): the first match of a digit run optionally followed by a
period and a further digit run, as a rational; 0 when there is none. -/
def extract_numeric_quantity (quantity : String) : ℚ :=
  go quantity.data
where
  /-- Scan for the first digit and read the greedy number starting
  there. -/
  go : List Char → ℚ
    | [] => 0
    | c :: rest =>
      if isDig c then
        let ds := (c :: rest).takeWhile isDig
        let after := (c :: rest).dropWhile isDig
        match after with
        | '.' :: r =>
          let fs := r.takeWhile isDig
          if fs.isEmpty then (natVal ds : ℚ)
          else (natVal ds : ℚ) + (natVal fs : ℚ) / (10 : ℚ) ^ fs.length
        | _ => (natVal ds : ℚ)
      else go rest

end ResponseHandler

namespace OrderValidator

/-- OrderValidator.clean_number (src/order_validator.py lines 7-33):
delete USD, strip whitespace, and when a comma is present remove every
period and turn every comma into a period; a trailing dash is moved to
the front as a minus sign; the result is read with Decimal(), any
failure yielding 0. -/
def clean_number (value : String) : ℚ :=
  if value = "" then 0
  else
    let cleaned := stripWs (removeUSD value.data)
    let cleaned :=
      if cleaned.contains ',' then commaToDot (cleaned.filter (· ≠ '.'))
      else cleaned
    let cleaned :=
      if cleaned.getLast? = some '-' then '-' :: cleaned.dropLast
      else cleaned
    (pyDecimal cleaned).getD 0

/-- OrderValidator.clean_quantity (src/order_validator.py lines 35-48):
the digits of the first whitespace-separated token, as an integer; every
failure path yields 0. -/
def clean_quantity (value : String) : ℕ :=
  let tok := (value.data.dropWhile isWs).takeWhile (fun c => !isWs c)
  if tok.isEmpty then 0
  else
    let ds := tok.filter isDig
    if ds.isEmpty then 0 else natVal ds

end OrderValidator

/-- An authoritative (Priority) order line, with the fields of
PORDERITEMS_SUBFORM consumed by the validation code.  A field absent
from the JSON is modelled by the default the sources supply through
dict.get: the empty string for PARTNAME, 0 for the numbers. -/
structure PriorityItem where
  partname : String
  tquant : ℤ
  vatprice : ℚ
deriving Repr, DecidableEq

/-- An AI-extracted order line, with the fields consumed by the
validation code; an absent field is the empty string. -/
structure AIItem where
  product_code : String
  description : String
  quantity : String
  item_total : String
deriving Repr, DecidableEq

/-- Whether a product code starts with the shipping code SH. -/
def isShippingCode (code : String) : Bool :=
  listStartsWith ['S', 'H'] code.data

/-- The last element of the list whose product code equals the key: the
value held by a Python dict comprehension keyed by product code, where a
later duplicate overwrites an earlier one. -/
def lastAIWith (code : String) (items : List AIItem) : Option AIItem :=
  (items.filter (fun a => a.product_code = code)).getLast?

/-- The approval-level money comparison of validate_items_detail
(src/priority_api.py lines 678-679): two amounts agree when their
absolute difference is strictly below 0.01. -/
def pricesMatchApproval (priority ai : ℚ) : Bool :=
  decide (|priority - ai| < 1 / 100)

namespace PriorityAPI

/-- One entry of the item_details list built by validate_items_detail.
When the authoritative code is absent from the AI side the Python code
leaves the ai_* fields at None and every match flag at False; the None
values are modelled by Option. -/
structure ItemDetail where
  partname : String
  priority_quantity : ℤ
  priority_price : ℚ
  matched : Bool
  ai_quantity_numeric : Option ℕ
  ai_price_numeric : Option ℚ
  quantity_match : Bool
  price_match : Bool
  validation_passed : Bool
deriving Repr, DecidableEq

/-- The detail record produced for one authoritative item by the main
loop of validate_items_detail (src/priority_api.py lines 649-739). -/
def mkItemDetail (ai : List AIItem) (p : PriorityItem) : ItemDetail :=
  match lastAIWith p.partname ai with
  | some a =>
    let q := extract_numeric_quantity a.quantity
    let pr := extract_numeric_price a.item_total
    let qm := decide ((q : ℤ) = p.tquant)
    let pm := pricesMatchApproval p.vatprice pr
    { partname := p.partname
      priority_quantity := p.tquant
      priority_price := p.vatprice
      matched := true
      ai_quantity_numeric := some q
      ai_price_numeric := some pr
      quantity_match := qm
      price_match := pm
      validation_passed := qm && pm }
  | none =>
    { partname := p.partname
      priority_quantity := p.tquant
      priority_price := p.vatprice
      matched := false
      ai_quantity_numeric := none
      ai_price_numeric := none
      quantity_match := false
      price_match := false
      validation_passed := false }

/-- The result record of validate_items_detail.  The mismatch lists hold
the product codes of the offending items, in loop order; the source
stores small dicts whose remaining fields merely copy the raw and
numeric values already present in item_details. -/
structure ItemValidationResult where
  all_items_valid : Bool
  item_count_match : Bool
  priority_item_count : ℕ
  ai_item_count : ℕ
  item_details : List ItemDetail
  quantity_mismatches : List String
  price_mismatches : List String
  missing_in_ai : List String
  missing_in_priority : List String
deriving Repr, DecidableEq

/-- PriorityAPIClient.validate_items_detail (src/priority_api.py lines
617-761).  The Python loop appends to the mismatch lists and forces
all_items_valid to False as it walks the two item lists; the translation
computes each list directly, in the same order, and all_items_valid as
the conjunction the loop produces: no quantity mismatch, no price
mismatch, no authoritative item absent from the AI side and no AI item
absent from the authoritative side. -/
def validate_items_detail (priority : List PriorityItem) (ai : List AIItem) :
    ItemValidationResult :=
  let details := priority.map (mkItemDetail ai)
  let qmis := (details.filter
    (fun d => d.matched && !d.quantity_match)).map (fun d => d.partname)
  let pmis := (details.filter
    (fun d => d.matched && !d.price_match)).map (fun d => d.partname)
  let missAI := (details.filter
    (fun d => !d.matched)).map (fun d => d.partname)
  let missPriority := (ai.filter (fun a =>
    !(priority.any (fun p => p.partname = a.product_code)))).map
      (fun a => a.product_code)
  { all_items_valid :=
      qmis.isEmpty && pmis.isEmpty && missAI.isEmpty && missPriority.isEmpty
    item_count_match := decide (priority.length = ai.length)
    priority_item_count := priority.length
    ai_item_count := ai.length
    item_details := details
    quantity_mismatches := qmis
    price_mismatches := pmis
    missing_in_ai := missAI
    missing_in_priority := missPriority }

/-- The shipping-charge record extracted from the AI side, corresponding
to the dict returned by _extract_ai_shipping_info or passed by the
caller as ai_shipping_info. -/
structure ShipInfo where
  found_keyword : String
  price_raw : String
  price_numeric : ℚ
deriving Repr, DecidableEq

/-- The ordered shipping keyword list of _extract_ai_shipping_info
(src/priority_api.py lines 889-896). -/
def shippingKeywords : List String :=
  ["shipping & handling", "expedited handling", "shipping", "handling",
   "freight", "delivery"]

/-- The searchable text of one AI item: the concatenation of its
product_code and description fields preceded by spaces, lower-cased and
stripped, as assembled by _extract_ai_shipping_info (the remaining
candidate field names do not occur on extracted items). -/
def itemText (a : AIItem) : List Char :=
  stripWs (((" " ++ a.product_code ++ " " ++ a.description).toLower).data)

/-- PriorityAPIClient._extract_ai_shipping_info (src/priority_api.py
lines 884-929): the first item whose text contains a shipping keyword,
with the first such keyword in list order and the price taken from its
item_total field. -/
def extract_ai_shipping_info : List AIItem → Option ShipInfo
  | [] => none
  | a :: rest =>
    match shippingKeywords.find? (fun k => listHasSub k.data (itemText a)) with
    | some k =>
      some { found_keyword := k
             price_raw := a.item_total
             price_numeric := extract_numeric_price a.item_total }
    | none => extract_ai_shipping_info rest

/-- The result record of validate_shipping_charges. -/
structure ShippingValidationResult where
  shipping_validation_passed : Bool
  validation_case : String
  priority_shipping_items : List (String × ℚ)
  priority_shipping_total : ℚ
  ai_shipping_info : Option ShipInfo
  shipping_match : Bool
  price_difference : ℚ
deriving Repr, DecidableEq

/-- PriorityAPIClient.validate_shipping_charges (src/priority_api.py
lines 763-882): collect the authoritative items whose code starts with
SH, take the AI shipping record from the caller-supplied hint or else
from the keyword scan, and decide one of the four presence cases. -/
def validate_shipping_charges (priority : List PriorityItem)
    (ai : List AIItem) (hint : Option ShipInfo) : ShippingValidationResult :=
  let shItems := (priority.filter (fun p => isShippingCode p.partname)).map
    (fun p => (p.partname, p.vatprice))
  let total := (shItems.map (fun x => x.2)).sum
  let info :=
    match hint with
    | some h => some h
    | none => extract_ai_shipping_info ai
  let aiPrice := match info with | some h => h.price_numeric | none => 0
  match info with
  | some h =>
    if !shItems.isEmpty then
      let diff := |total - aiPrice|
      let ok := decide (diff < 1 / 100)
      { shipping_validation_passed := ok
        validation_case := "both_exist_compare_prices"
        priority_shipping_items := shItems
        priority_shipping_total := total
        ai_shipping_info := some h
        shipping_match := ok
        price_difference := diff }
    else
      { shipping_validation_passed := false
        validation_case := "ai_has_priority_missing"
        priority_shipping_items := shItems
        priority_shipping_total := total
        ai_shipping_info := some h
        shipping_match := false
        price_difference := 0 }
  | none =>
    if !shItems.isEmpty then
      { shipping_validation_passed := false
        validation_case := "priority_has_ai_missing"
        priority_shipping_items := shItems
        priority_shipping_total := total
        ai_shipping_info := none
        shipping_match := false
        price_difference := 0 }
    else
      { shipping_validation_passed := true
        validation_case := "neither_has_shipping"
        priority_shipping_items := shItems
        priority_shipping_total := total
        ai_shipping_info := none
        shipping_match := true
        price_difference := 0 }

/-- The Hebrew status written on full approval (supplier approval). -/
def approvedStatus : String := "אישור ספק"

/-- The Hebrew status written on any failed criterion (sent back to the
supplier for review). -/
def sentBackStatus : String := "נשלח לספק"

/-- The slice of the price_validation dict consulted by
update_final_status: whether a total-price comparison was attempted and
the three validation results assembled by update_order_items. -/
structure PriceValidation where
  validation_attempted : Bool
  price_match : Bool
  item_validation : ItemValidationResult
  shipping_validation : ShippingValidationResult
deriving Repr, DecidableEq

/-- The status decision of PriorityAPIClient.update_final_status
(src/priority_api.py lines 506-566): none models the early return that
writes no status at all (no validation attempted), and some s models the
PATCH that writes status s.  The network call itself is outside the
engine. -/
def update_final_status (pv : PriceValidation) : Option String :=
  if pv.validation_attempted then
    if pv.price_match && pv.item_validation.all_items_valid &&
        pv.item_validation.item_count_match &&
        pv.shipping_validation.shipping_validation_passed &&
        decide (pv.item_validation.missing_in_ai.length = 0) then
      some approvedStatus
    else
      some sentBackStatus
  else none

end PriorityAPI

/-- Gregorian leap-year test, as in the Python datetime module. -/
def isLeapYear (y : ℕ) : Bool := y % 4 = 0 && (y % 100 ≠ 0 || y % 400 = 0)

/-- Length of a month of the proleptic Gregorian calendar; 0 for an
out-of-range month number. -/
def monthLength (y m : ℕ) : ℕ :=
  match m with
  | 1 => 31 | 2 => if isLeapYear y then 29 else 28
  | 3 => 31 | 4 => 30 | 5 => 31 | 6 => 30 | 7 => 31
  | 8 => 31 | 9 => 30 | 10 => 31 | 11 => 30 | 12 => 31
  | _ => 0

/-- Days in the years before year y of the proleptic Gregorian calendar
(year 1 is the first). -/
def daysBeforeYear (y : ℕ) : ℕ :=
  365 * (y - 1) + (y - 1) / 4 + (y - 1) / 400 - (y - 1) / 100

/-- Days in the months of year y before month m. -/
def daysBeforeMonth (y m : ℕ) : ℕ :=
  (List.range (m - 1)).foldl (fun acc i => acc + monthLength y (i + 1)) 0

/-- The day number of a proleptic Gregorian date, with 0001-01-01 as day
1: exactly Python date.toordinal.  Python datetime objects are modelled
throughout by their ordinals, on which timedelta arithmetic is ordinary
integer arithmetic. -/
def toOrdinal (y m d : ℕ) : ℤ :=
  ((daysBeforeYear y + daysBeforeMonth y m + d : ℕ) : ℤ)

/-- Python date.weekday on an ordinal: 0 is Monday through 6 is Sunday
(0001-01-01 was a Monday). -/
def weekdayM (t : ℤ) : ℤ := (t - 1) % 7

/-- The Thursday of the Monday-started (ISO) week containing the given
day: the days_to_thursday computation of calculate_priority_date
(src/priority_api.py lines 470-472). -/
def thursdayOfWeek (t : ℤ) : ℤ := t + (3 - weekdayM t)

/-- Inverse of toOrdinal: the (year, month, day) triple of a day number,
valid for ordinals of year 1 onwards (the civil-from-days algorithm on a
1-based day count). -/
def civilFromOrdinal (t : ℤ) : ℕ × ℕ × ℕ :=
  let z := (t + 305).toNat
  let era := z / 146097
  let doe := z % 146097
  let yoe := (doe - doe / 1460 + doe / 36524 - doe / 146096) / 365
  let y := yoe + era * 400
  let doy := doe - (365 * yoe + yoe / 4 - yoe / 100)
  let mp := (5 * doy + 2) / 153
  let d := doy - (153 * mp + 2) / 5 + 1
  let m := if mp < 10 then mp + 3 else mp - 9
  if m ≤ 2 then (y + 1, m, d) else (y, m, d)

/-- A number printed in base 10 and zero-padded to two characters: the
strftime conversions for day and month. -/
def fmt2 (n : ℕ) : List Char :=
  if n < 10 then ['0', Nat.digitChar n] else Nat.toDigits 10 n

/-- A year printed to four characters (the strftime year conversion for
the years 1000-9999 handled by the theorems below). -/
def fmt4 (n : ℕ) : List Char := fmt2 (n / 100) ++ fmt2 (n % 100)

/-- A date in the DD.MM.YYYY form the documents carry. -/
def formatDotDate (d m y : ℕ) : String :=
  String.mk (fmt2 d ++ '.' :: (fmt2 m ++ '.' :: fmt4 y))

/-- strftime with the DD/MM/YYYY format applied to an ordinal: the final
formatting step of calculate_priority_date. -/
def formatSlashFromOrdinal (t : ℤ) : String :=
  let c := civilFromOrdinal t
  String.mk (fmt2 c.2.2 ++ '/' :: (fmt2 c.2.1 ++ '/' :: fmt4 c.1))

/-- Whether a token is accepted by the strptime day or month directive:
one or two digits whose value lies in the given range (a value of zero
is rejected by the directive patterns). -/
def strptimeField (lo hi : ℕ) (l : List Char) : Option ℕ :=
  if !l.isEmpty && l.length ≤ 2 && l.all isDig &&
      lo ≤ natVal l && natVal l ≤ hi then some (natVal l) else none

/-- The date parsing performed by calculate_priority_date
(src/priority_api.py lines 452-461): a string containing a period is
split on periods into exactly three int() fields read as day, month and
year; otherwise the string is read by strptime with the DD/MM/YYYY
format (day and month of one or two digits, year of exactly four
digits).  The result must be a valid datetime date (year 1-9999, day
within the month); none models the exceptions the source catches. -/
def parseDeliveryDate (s : String) : Option (ℕ × ℕ × ℕ) :=
  if s.data.contains '.' then
    match splitSep '.' s.data with
    | [p1, p2, p3] =>
      match pyIntList p3, pyIntList p2, pyIntList p1 with
      | some y, some m, some d =>
        if 1 ≤ y && y ≤ 9999 && 1 ≤ m && m ≤ 12 && 1 ≤ d &&
            d ≤ (monthLength y.toNat m.toNat : ℤ) then
          some (y.toNat, m.toNat, d.toNat)
        else none
      | _, _, _ => none
    | _ => none
  else
    match splitSep '/' s.data with
    | [p1, p2, p3] =>
      match strptimeField 1 31 p1, strptimeField 1 12 p2 with
      | some d, some m =>
        if p3.length = 4 && p3.all isDig && 1 ≤ natVal p3 &&
            d ≤ monthLength (natVal p3) m then
          some (natVal p3, m, d)
        else none
      | _, _ => none
    | _ => none

/-- The fallback of calculate_priority_date on any exception
(src/priority_api.py lines 501-504): the input string with every period
replaced by a slash when it contains a period, otherwise the input
unchanged. -/
def fallbackDate (s : String) : String :=
  if s.data.contains '.' then
    String.mk (s.data.map (fun c => if c = '.' then '/' else c))
  else s

namespace PriorityAPI

/-- PriorityAPIClient.calculate_priority_date (src/priority_api.py lines
433-504): parse the delivery date, subtract six days, then either move
to the Thursday of that week (when the address contains both 12 Bet and
the abbreviation St.) or move a Saturday back to Friday, and format the
result; every failing path, including a date subtraction leaving the
supported year range (an OverflowError in Python), returns the fallback
string. -/
def calculate_priority_date (deliveryDate address : String) : String :=
  match parseDeliveryDate deliveryDate with
  | none => fallbackDate deliveryDate
  | some (y, m, d) =>
    let c : ℤ := toOrdinal y m d - 6
    if c < 1 then fallbackDate deliveryDate
    else if strContains address "12 Bet" && strContains address "St." then
      let t := thursdayOfWeek c
      if t < 1 then fallbackDate deliveryDate
      else formatSlashFromOrdinal t
    else if weekdayM c = 5 then formatSlashFromOrdinal (c - 1)
    else formatSlashFromOrdinal c

end PriorityAPI

/-- Recursion core of dedupFirst; the fuel argument (always at least the
list length) makes the recursion structural. -/
def dedupFirstAux : ℕ → List String → List String
  | 0, _ => []
  | _, [] => []
  | n + 1, c :: cs => c :: dedupFirstAux n (cs.filter (fun x => x ≠ c))

/-- The distinct elements of a list in order of first occurrence: the
key sequence of a Python dict comprehension over the list. -/
def dedupFirst (l : List String) : List String := dedupFirstAux l.length l

/-- The last element of the list whose partname equals the key, with a
zero item as the (never consulted) default: the value stored under that
key by a dict comprehension over authoritative items. -/
def lastPriorityWith (code : String) (items : List PriorityItem) :
    PriorityItem :=
  ((items.filter (fun p => p.partname = code)).getLast?).getD
    { partname := "", tquant := 0, vatprice := 0 }

namespace OrderValidator

/-- An extracted (Agilent) order line as consumed by validate_orders; an
absent field is the empty string. -/
structure AgilentItem where
  product_code : String
  quantity : String
  item_total : String
deriving Repr, DecidableEq

/-- The last Agilent item with the given product code. -/
def lastAgilentWith (code : String) (items : List AgilentItem) :
    AgilentItem :=
  ((items.filter (fun a => a.product_code = code)).getLast?).getD
    { product_code := "", quantity := "", item_total := "" }

/-- The result record of validate_orders; the mismatch and incomplete
lists hold the product codes of the offending items (the source stores
small dicts whose other fields copy the compared values). -/
structure OrderValidationResult where
  status : String
  mismatches : List String
  missing_in_priority : List String
  missing_in_agilent : List String
  incomplete_items : List String
deriving Repr, DecidableEq

/-- OrderValidator.validate_orders (src/order_validator.py lines
50-126).  Both sides are turned into dicts keyed by product code (later
duplicates overwrite, key order is first occurrence); an Agilent item
carrying a product code but an empty item_total is incomplete; a matched
code mismatches when the cleaned quantities differ or the cleaned totals
differ by more than 0.01; and the final status is INCOMPLETE_DATA when
any item is incomplete, else SAME exactly when the three discrepancy
lists are empty, else MISMATCH. -/
def validate_orders (agilent : List AgilentItem)
    (priority : List PriorityItem) : OrderValidationResult :=
  let incomplete := (agilent.filter (fun i =>
    i.product_code ≠ "" && i.item_total = "")).map (fun i => i.product_code)
  let priorityCodes := dedupFirst (priority.map (fun p => p.partname))
  let agilentCodes := dedupFirst (agilent.map (fun a => a.product_code))
  let missingInPriority := agilentCodes.filter
    (fun c => !priorityCodes.contains c)
  let mismatches := (agilentCodes.filter
    (fun c => priorityCodes.contains c)).filter (fun c =>
      let a := lastAgilentWith c agilent
      let p := lastPriorityWith c priority
      decide ((clean_quantity a.quantity : ℤ) ≠ p.tquant) ||
        decide (1 / 100 < |clean_number a.item_total - p.vatprice|))
  let missingInAgilent := priorityCodes.filter
    (fun c => !agilentCodes.contains c)
  { status :=
      if !incomplete.isEmpty then "INCOMPLETE_DATA"
      else if mismatches.isEmpty && missingInPriority.isEmpty &&
          missingInAgilent.isEmpty then "SAME"
      else "MISMATCH"
    mismatches := mismatches
    missing_in_priority := missingInPriority
    missing_in_agilent := missingInAgilent
    incomplete_items := incomplete }

end OrderValidator

/-- The report-level money mismatch test of validate_extraction_results
(src/response_handler.py lines 330-343): a price mismatch is recorded
when the absolute difference reaches 0.005. -/
def reportPriceMismatch (extracted priority : ℚ) : Bool :=
  decide (1 / 200 ≤ |extracted - priority|)

namespace ResponseHandler

/-- The result record of validate_extraction_results; the mismatch lists
hold the offending product codes in loop order. -/
structure ExtractionValidationResult where
  length_match : Bool
  expected_count : ℕ
  extracted_count : ℕ
  missing_partnames : List String
  quantity_mismatches : List String
  price_mismatches : List String
  is_valid : Bool
deriving Repr, DecidableEq

/-- The last extracted item with the given product code. -/
def lastExtractedWith (code : String) (items : List AIItem) : AIItem :=
  ((items.filter (fun a => a.product_code = code)).getLast?).getD
    { product_code := "", description := "", quantity := "", item_total := "" }

/-- ResponseHandler.validate_extraction_results (src/response_handler.py
lines 282-373): the authoritative items are keyed by partname and the
extracted items with a nonempty product code by that code; a partname
absent from the extracted side is missing, and a matched partname is
flagged on quantity inequality and on a price difference of at least
0.005. -/
def validate_extraction_results (priority : List PriorityItem)
    (extracted : List AIItem) : ExtractionValidationResult :=
  let exItems := extracted.filter (fun e => e.product_code ≠ "")
  let exCodes := exItems.map (fun e => e.product_code)
  let priorityCodes := dedupFirst (priority.map (fun p => p.partname))
  let missing := priorityCodes.filter (fun c => !exCodes.contains c)
  let matched := priorityCodes.filter (fun c => exCodes.contains c)
  let qmis := matched.filter (fun c =>
    decide (extract_numeric_quantity (lastExtractedWith c exItems).quantity ≠
      ((lastPriorityWith c priority).tquant : ℚ)))
  let pmis := matched.filter (fun c =>
    reportPriceMismatch
      (extract_numeric_price (lastExtractedWith c exItems).item_total)
      (lastPriorityWith c priority).vatprice)
  let lengthMatch := decide (extracted.length = priority.length)
  { length_match := lengthMatch
    expected_count := priority.length
    extracted_count := extracted.length
    missing_partnames := missing
    quantity_mismatches := qmis
    price_mismatches := pmis
    is_valid := missing.isEmpty && qmis.isEmpty && pmis.isEmpty &&
      lengthMatch }

end ResponseHandler

/-! ## Theorems -/

section ListLemmas

variable {α : Type} {β : Type}

/-- Mapping over a filtered list is empty exactly when nothing satisfies
the filter. -/
theorem filter_map_isEmpty (f : α → Bool) (g : α → β) (l : List α) :
    ((l.filter f).map g).isEmpty = !l.any f := by
  induction l with
  | nil => rfl
  | cons a t ih =>
    by_cases h : f a
    · simp [List.filter_cons, h]
    · simp only [List.filter_cons, h, if_neg, Bool.false_eq_true,
        not_false_iff, List.any_cons]
      simp [h, ih]

/-- Filtering a one-element list keeps the element exactly when it
satisfies the filter. -/
theorem filter_single_pos (f : α → Bool) (a : α) (h : f a = true) :
    List.filter f [a] = [a] := by
  simp [h]

/-- Filtering a one-element list drops the element when it fails the
filter. -/
theorem filter_single_neg (f : α → Bool) (a : α) (h : f a = false) :
    List.filter f [a] = [] := by
  simp [h]

/-- Membership in the image of a filtered list. -/
theorem mem_filter_map (f : α → Bool) (g : α → β) (l : List α) (b : β) :
    b ∈ (l.filter f).map g ↔ ∃ a ∈ l, f a = true ∧ g a = b := by
  simp only [List.mem_map, List.mem_filter]
  constructor
  · rintro ⟨a, ⟨ha, hf⟩, hg⟩
    exact ⟨a, ha, hf, hg⟩
  · rintro ⟨a, ha, hf, hg⟩
    exact ⟨a, ⟨ha, hf⟩, hg⟩

end ListLemmas

/-- The dict lookup used by validate_items_detail finds an AI item
exactly when some extracted item carries the product code. -/
theorem lastAIWith_isSome_iff (code : String) (ai : List AIItem) :
    (lastAIWith code ai).isSome = true ↔
      ∃ a ∈ ai, a.product_code = code := by
  unfold lastAIWith
  rw [List.getLast?_isSome]
  constructor
  · intro h
    rcases List.exists_mem_of_ne_nil _ h with ⟨a, ha⟩
    rcases List.mem_filter.mp ha with ⟨hmem, hcode⟩
    exact ⟨a, hmem, by simpa using hcode⟩
  · rintro ⟨a, ha, hc⟩
    intro hnil
    have hmem : a ∈ ai.filter (fun x => x.product_code = code) :=
      List.mem_filter.mpr ⟨ha, by simpa using hc⟩
    rw [hnil] at hmem
    exact absurd hmem (List.not_mem_nil a)

/-- The detail record keeps the authoritative partname. -/
theorem mkItemDetail_partname (ai : List AIItem) (x : PriorityItem) :
    (PriorityAPI.mkItemDetail ai x).partname = x.partname := by
  cases h : lastAIWith x.partname ai <;> simp [PriorityAPI.mkItemDetail, h]

/-- The matched flag of a detail record is the success of the dict
lookup. -/
theorem mkItemDetail_matched (ai : List AIItem) (x : PriorityItem) :
    (PriorityAPI.mkItemDetail ai x).matched =
      (lastAIWith x.partname ai).isSome := by
  cases h : lastAIWith x.partname ai <;> simp [PriorityAPI.mkItemDetail, h]

/-- An unmatched detail record has both match flags false. -/
theorem mkItemDetail_flags_of_unmatched (ai : List AIItem) (x : PriorityItem)
    (h : lastAIWith x.partname ai = none) :
    (PriorityAPI.mkItemDetail ai x).quantity_match = false ∧
      (PriorityAPI.mkItemDetail ai x).price_match = false := by
  simp [PriorityAPI.mkItemDetail, h]

/-- C10: validate_orders returns exactly one of INCOMPLETE_DATA, SAME
and MISMATCH, with INCOMPLETE_DATA taking precedence whenever some
extracted item carries a product code but an empty item_total, and with
SAME exactly when the mismatch and the two missing lists are all empty. -/
theorem validate_orders_status (agilent : List OrderValidator.AgilentItem)
    (priority : List PriorityItem) :
    let r := OrderValidator.validate_orders agilent priority
    (r.status =
      if agilent.any (fun i => i.product_code ≠ "" && i.item_total = "") then
        "INCOMPLETE_DATA"
      else if r.mismatches.isEmpty && r.missing_in_priority.isEmpty &&
          r.missing_in_agilent.isEmpty then "SAME"
      else "MISMATCH") ∧
    (r.status = "INCOMPLETE_DATA" ∨ r.status = "SAME" ∨
      r.status = "MISMATCH") := by
  intro r
  have h1 : r.status =
      if !(((agilent.filter (fun i =>
          i.product_code ≠ "" && i.item_total = "")).map
            (fun i => i.product_code)).isEmpty) then "INCOMPLETE_DATA"
      else if r.mismatches.isEmpty && r.missing_in_priority.isEmpty &&
          r.missing_in_agilent.isEmpty then "SAME"
      else "MISMATCH" := rfl
  rw [filter_map_isEmpty, Bool.not_not] at h1
  refine ⟨h1, ?_⟩
  by_cases hi : (agilent.any
      (fun i => i.product_code ≠ "" && i.item_total = "")) = true
  · rw [h1, if_pos hi]
    exact Or.inl rfl
  · rw [h1, if_neg hi]
    by_cases hs : (r.mismatches.isEmpty && r.missing_in_priority.isEmpty &&
        r.missing_in_agilent.isEmpty) = true
    · rw [if_pos hs]
      exact Or.inr (Or.inl rfl)
    · rw [if_neg hs]
      exact Or.inr (Or.inr rfl)

/-- C5: the item matcher never drops a one-sided product code (it lands
in missing_in_ai or missing_in_priority), all_items_valid holds exactly
when every authoritative item has a counterpart, every match flag is
true and both missing lists are empty, and item_count_match compares
nothing but the two lengths. -/
theorem item_matcher_invariants (priority : List PriorityItem)
    (ai : List AIItem) :
    let r := PriorityAPI.validate_items_detail priority ai
    (∀ code : String, code ∈ r.missing_in_ai ↔
      ((∃ x ∈ priority, x.partname = code) ∧
        ¬∃ a ∈ ai, a.product_code = code)) ∧
    (∀ code : String, code ∈ r.missing_in_priority ↔
      ((∃ a ∈ ai, a.product_code = code) ∧
        ¬∃ x ∈ priority, x.partname = code)) ∧
    (r.all_items_valid = true ↔
      ((∀ x ∈ priority, ∃ a ∈ ai, a.product_code = x.partname) ∧
       (∀ d ∈ r.item_details, d.quantity_match = true ∧
         d.price_match = true) ∧
       r.missing_in_ai = [] ∧ r.missing_in_priority = [])) ∧
    (r.item_count_match = true ↔ priority.length = ai.length) := by
  intro r
  have hdet : r.item_details = priority.map (PriorityAPI.mkItemDetail ai) :=
    rfl
  have hmA : r.missing_in_ai =
      ((priority.map (PriorityAPI.mkItemDetail ai)).filter
        (fun d => !d.matched)).map (fun d => d.partname) := rfl
  have hmP : r.missing_in_priority =
      (ai.filter (fun a =>
        !(priority.any (fun p => p.partname = a.product_code)))).map
          (fun a => a.product_code) := rfl
  have hmatched : ∀ x : PriorityItem,
      ((PriorityAPI.mkItemDetail ai x).matched = true ↔
        ∃ a ∈ ai, a.product_code = x.partname) := by
    intro x
    rw [mkItemDetail_matched, lastAIWith_isSome_iff]
  have hmissingAI : ∀ code : String, code ∈ r.missing_in_ai ↔
      ((∃ x ∈ priority, x.partname = code) ∧
        ¬∃ a ∈ ai, a.product_code = code) := by
    intro code
    rw [hmA, mem_filter_map]
    constructor
    · rintro ⟨d, hd, hnm, hname⟩
      rcases List.mem_map.mp hd with ⟨x, hx, rfl⟩
      rw [mkItemDetail_partname] at hname
      refine ⟨⟨x, hx, hname⟩, ?_⟩
      rintro ⟨a, ha, hc⟩
      have hm : (PriorityAPI.mkItemDetail ai x).matched = true :=
        (hmatched x).mpr ⟨a, ha, by rw [hc, hname]⟩
      rw [hm] at hnm
      exact absurd hnm (by decide)
    · rintro ⟨⟨x, hx, hxc⟩, hno⟩
      refine ⟨PriorityAPI.mkItemDetail ai x, List.mem_map_of_mem _ hx, ?_, ?_⟩
      · have hm : ¬(PriorityAPI.mkItemDetail ai x).matched = true := by
          rw [hmatched x]
          rintro ⟨a, ha, hc⟩
          exact hno ⟨a, ha, by rw [hc, hxc]⟩
        simp [Bool.not_eq_true] at hm
        simp [hm]
      · rw [mkItemDetail_partname]
        exact hxc
  refine ⟨hmissingAI, ?_, ?_, ?_⟩
  · intro code
    rw [hmP, mem_filter_map]
    constructor
    · rintro ⟨a, ha, hf, hc⟩
      refine ⟨⟨a, ha, hc⟩, ?_⟩
      rintro ⟨x, hx, hxc⟩
      have : priority.any (fun p => p.partname = a.product_code) = true :=
        List.any_eq_true.mpr ⟨x, hx, by simp [hxc, hc]⟩
      rw [this] at hf
      exact absurd hf (by decide)
    · rintro ⟨⟨a, ha, hc⟩, hno⟩
      refine ⟨a, ha, ?_, hc⟩
      have : priority.any (fun p => p.partname = a.product_code) = false := by
        rw [← Bool.not_eq_true, List.any_eq_true]
        rintro ⟨x, hx, hxc⟩
        simp only [decide_eq_true_eq] at hxc
        exact hno ⟨x, hx, by rw [hxc, hc]⟩
      simp [this]
  · have hvalid : r.all_items_valid =
        ((((priority.map (PriorityAPI.mkItemDetail ai)).filter
            (fun d => d.matched && !d.quantity_match)).map
              (fun d => d.partname)).isEmpty &&
         (((priority.map (PriorityAPI.mkItemDetail ai)).filter
            (fun d => d.matched && !d.price_match)).map
              (fun d => d.partname)).isEmpty &&
         r.missing_in_ai.isEmpty && r.missing_in_priority.isEmpty) := rfl
    rw [hvalid]
    simp only [Bool.and_eq_true, List.isEmpty_iff]
    constructor
    · rintro ⟨⟨⟨hq, hp⟩, hA⟩, hP⟩
      have hqn : ((priority.map (PriorityAPI.mkItemDetail ai)).filter
          (fun d => d.matched && !d.quantity_match)) = [] :=
        List.map_eq_nil_iff.mp hq
      have hpn : ((priority.map (PriorityAPI.mkItemDetail ai)).filter
          (fun d => d.matched && !d.price_match)) = [] :=
        List.map_eq_nil_iff.mp hp
      have hAm : ∀ x ∈ priority, (PriorityAPI.mkItemDetail ai x).matched = true := by
        intro x hx
        by_contra hcontra
        have hxm : (PriorityAPI.mkItemDetail ai x).partname ∈ r.missing_in_ai := by
          rw [hmA, mem_filter_map]
          exact ⟨PriorityAPI.mkItemDetail ai x, List.mem_map_of_mem _ hx,
            by simp [Bool.not_eq_true] at hcontra; simp [hcontra], rfl⟩
        rw [hA] at hxm
        exact absurd hxm (List.not_mem_nil _)
      refine ⟨?_, ?_, hA, hP⟩
      · intro x hx
        exact (hmatched x).mp (hAm x hx)
      · intro d hd
        rw [hdet] at hd
        rcases List.mem_map.mp hd with ⟨x, hx, rfl⟩
        have hm := hAm x hx
        constructor
        · by_contra hq1
          have : PriorityAPI.mkItemDetail ai x ∈
              ((priority.map (PriorityAPI.mkItemDetail ai)).filter
                (fun d => d.matched && !d.quantity_match)) := by
            refine List.mem_filter.mpr ⟨List.mem_map_of_mem _ hx, ?_⟩
            simp [Bool.not_eq_true] at hq1
            simp [hm, hq1]
          rw [hqn] at this
          exact absurd this (List.not_mem_nil _)
        · by_contra hp1
          have : PriorityAPI.mkItemDetail ai x ∈
              ((priority.map (PriorityAPI.mkItemDetail ai)).filter
                (fun d => d.matched && !d.price_match)) := by
            refine List.mem_filter.mpr ⟨List.mem_map_of_mem _ hx, ?_⟩
            simp [Bool.not_eq_true] at hp1
            simp [hm, hp1]
          rw [hpn] at this
          exact absurd this (List.not_mem_nil _)
    · rintro ⟨hA, hB, hmAe, hmPe⟩
      refine ⟨⟨⟨?_, ?_⟩, hmAe⟩, hmPe⟩
      · rw [List.map_eq_nil_iff, List.filter_eq_nil_iff]
        intro d hd
        have hflags := hB d (by rw [hdet]; exact hd)
        simp [hflags.1]
      · rw [List.map_eq_nil_iff, List.filter_eq_nil_iff]
        intro d hd
        have hflags := hB d (by rw [hdet]; exact hd)
        simp [hflags.2]
  · have hc : r.item_count_match = decide (priority.length = ai.length) :=
      rfl
    rw [hc]
    exact decide_eq_true_iff

/-- C3: the approval-level comparison accepts two normalized prices
exactly when their absolute difference is strictly below 0.01, while the
report generator flags a price mismatch exactly when the absolute
difference reaches 0.005; a difference of 0.0049 is a match under both
thresholds and a difference of 0.006 is a match under 0.01 but flagged
under 0.005, both on the bare comparators and through
validate_items_detail and validate_extraction_results on a concrete
order line. -/
theorem price_threshold_asymmetry :
    (∀ p q : ℚ, pricesMatchApproval p q = true ↔ |p - q| < 1 / 100) ∧
    (∀ p q : ℚ, reportPriceMismatch q p = true ↔ 1 / 200 ≤ |q - p|) ∧
    pricesMatchApproval 1100 (1100 + 49 / 10000) = true ∧
    reportPriceMismatch (1100 + 49 / 10000) 1100 = false ∧
    pricesMatchApproval 1100 (1100 + 6 / 1000) = true ∧
    reportPriceMismatch (1100 + 6 / 1000) 1100 = true ∧
    (PriorityAPI.validate_items_detail
        [{ partname := "A1", tquant := 1, vatprice := 1100 }]
        [{ product_code := "A1", description := "", quantity := "1 EA",
           item_total := "1.100,006" }]).all_items_valid = true ∧
    (ResponseHandler.validate_extraction_results
        [{ partname := "A1", tquant := 1, vatprice := 1100 }]
        [{ product_code := "A1", description := "", quantity := "1 EA",
           item_total := "1.100,006" }]).price_mismatches = ["A1"] ∧
    (ResponseHandler.validate_extraction_results
        [{ partname := "A1", tquant := 1, vatprice := 1100 }]
        [{ product_code := "A1", description := "", quantity := "1 EA",
           item_total := "1.100,0049" }]).price_mismatches = [] := by
  have habs49 : |(1100 : ℚ) - (1100 + 49 / 10000)| = 49 / 10000 := by
    rw [show (1100 : ℚ) - (1100 + 49 / 10000) = -(49 / 10000) by norm_num,
      abs_neg, abs_of_nonneg (by norm_num : (0 : ℚ) ≤ 49 / 10000)]
  have habs49s : |(1100 + 49 / 10000 : ℚ) - 1100| = 49 / 10000 := by
    rw [show (1100 + 49 / 10000 : ℚ) - 1100 = 49 / 10000 by norm_num,
      abs_of_nonneg (by norm_num : (0 : ℚ) ≤ 49 / 10000)]
  have habs6 : |(1100 : ℚ) - (1100 + 6 / 1000)| = 6 / 1000 := by
    rw [show (1100 : ℚ) - (1100 + 6 / 1000) = -(6 / 1000) by norm_num,
      abs_neg, abs_of_nonneg (by norm_num : (0 : ℚ) ≤ 6 / 1000)]
  have habs6s : |(1100 + 6 / 1000 : ℚ) - 1100| = 6 / 1000 := by
    rw [show (1100 + 6 / 1000 : ℚ) - 1100 = 6 / 1000 by norm_num,
      abs_of_nonneg (by norm_num : (0 : ℚ) ≤ 6 / 1000)]
  have hpri6 : PriorityAPI.extract_numeric_price "1.100,006" =
      1100 + 6 / 1000 := by
    rw [show PriorityAPI.extract_numeric_price "1.100,006" =
        ((natVal ['1', '1', '0', '0'] : ℚ) +
          (natVal ['0', '0', '6'] : ℚ) / (10 : ℚ) ^ (3 : ℕ)) from rfl,
      show natVal ['1', '1', '0', '0'] = 1100 from rfl,
      show natVal ['0', '0', '6'] = 6 from rfl]
    norm_num
  have hrh6 : ResponseHandler.extract_numeric_price "1.100,006" =
      1100 + 6 / 1000 := by
    rw [show ResponseHandler.extract_numeric_price "1.100,006" =
        ((natVal ['1', '1', '0', '0'] : ℚ) +
          (natVal ['0', '0', '6'] : ℚ) / (10 : ℚ) ^ (3 : ℕ)) from rfl,
      show natVal ['1', '1', '0', '0'] = 1100 from rfl,
      show natVal ['0', '0', '6'] = 6 from rfl]
    norm_num
  have hrh49 : ResponseHandler.extract_numeric_price "1.100,0049" =
      1100 + 49 / 10000 := by
    rw [show ResponseHandler.extract_numeric_price "1.100,0049" =
        ((natVal ['1', '1', '0', '0'] : ℚ) +
          (natVal ['0', '0', '4', '9'] : ℚ) / (10 : ℚ) ^ (4 : ℕ)) from rfl,
      show natVal ['1', '1', '0', '0'] = 1100 from rfl,
      show natVal ['0', '0', '4', '9'] = 49 from rfl]
    norm_num
  have hmatch49 : pricesMatchApproval 1100 (1100 + 49 / 10000) = true :=
    decide_eq_true (by rw [habs49]; norm_num)
  have hreport49 : reportPriceMismatch (1100 + 49 / 10000) 1100 = false :=
    decide_eq_false (by rw [habs49s]; norm_num)
  have hmatch6 : pricesMatchApproval 1100 (1100 + 6 / 1000) = true :=
    decide_eq_true (by rw [habs6]; norm_num)
  have hreport6 : reportPriceMismatch (1100 + 6 / 1000) 1100 = true :=
    decide_eq_true (by rw [habs6s]; norm_num)
  refine ⟨?_, ?_, hmatch49, hreport49, hmatch6, hreport6, ?_, ?_, ?_⟩
  · intro p q
    exact decide_eq_true_iff
  · intro p q
    exact decide_eq_true_iff
  · -- the approval-side fixture: a 0.006 difference still validates
    have hpm : (PriorityAPI.mkItemDetail
        [{ product_code := "A1", description := "", quantity := "1 EA",
           item_total := "1.100,006" }]
        { partname := "A1", tquant := 1, vatprice := 1100 }).price_match =
        true := by
      rw [show (PriorityAPI.mkItemDetail
          [{ product_code := "A1", description := "", quantity := "1 EA",
             item_total := "1.100,006" }]
          { partname := "A1", tquant := 1, vatprice := 1100 }).price_match =
          pricesMatchApproval 1100
            (PriorityAPI.extract_numeric_price "1.100,006") from rfl,
        hpri6]
      exact hmatch6
    have hfl : ((fun d : PriorityAPI.ItemDetail =>
        d.matched && !d.price_match) (PriorityAPI.mkItemDetail
          [{ product_code := "A1", description := "", quantity := "1 EA",
             item_total := "1.100,006" }]
          { partname := "A1", tquant := 1, vatprice := 1100 })) = false := by
      simp only [hpm]
      rfl
    rw [show (PriorityAPI.validate_items_detail
        [{ partname := "A1", tquant := 1, vatprice := 1100 }]
        [{ product_code := "A1", description := "", quantity := "1 EA",
           item_total := "1.100,006" }]).all_items_valid =
        (((List.filter (fun d => d.matched && !d.quantity_match)
            [PriorityAPI.mkItemDetail
              [{ product_code := "A1", description := "", quantity := "1 EA",
                 item_total := "1.100,006" }]
              { partname := "A1", tquant := 1, vatprice := 1100 }]).map
                (fun d => d.partname)).isEmpty &&
         ((List.filter (fun d => d.matched && !d.price_match)
            [PriorityAPI.mkItemDetail
              [{ product_code := "A1", description := "", quantity := "1 EA",
                 item_total := "1.100,006" }]
              { partname := "A1", tquant := 1, vatprice := 1100 }]).map
                (fun d => d.partname)).isEmpty &&
         true && true) from rfl,
      filter_single_neg
        (fun d : PriorityAPI.ItemDetail => d.matched && !d.price_match)
        (PriorityAPI.mkItemDetail
          [{ product_code := "A1", description := "", quantity := "1 EA",
             item_total := "1.100,006" }]
          { partname := "A1", tquant := 1, vatprice := 1100 }) hfl]
    rfl
  · -- the report-side fixture: the same 0.006 difference is flagged
    have hfl : reportPriceMismatch
        (ResponseHandler.extract_numeric_price "1.100,006") (1100 : ℚ) =
        true := by
      rw [hrh6]
      exact hreport6
    rw [show (ResponseHandler.validate_extraction_results
        [{ partname := "A1", tquant := 1, vatprice := 1100 }]
        [{ product_code := "A1", description := "", quantity := "1 EA",
           item_total := "1.100,006" }]).price_mismatches =
        List.filter (fun c => reportPriceMismatch
          (ResponseHandler.extract_numeric_price
            (ResponseHandler.lastExtractedWith c
              [{ product_code := "A1", description := "", quantity := "1 EA",
                 item_total := "1.100,006" }]).item_total)
          (lastPriorityWith c
            [{ partname := "A1", tquant := 1, vatprice := 1100 }]).vatprice)
          ["A1"] from rfl,
      filter_single_pos
        (fun c => reportPriceMismatch
          (ResponseHandler.extract_numeric_price
            (ResponseHandler.lastExtractedWith c
              [{ product_code := "A1", description := "", quantity := "1 EA",
                 item_total := "1.100,006" }]).item_total)
          (lastPriorityWith c
            [{ partname := "A1", tquant := 1, vatprice := 1100 }]).vatprice)
        "A1" hfl]
  · -- the report-side fixture at a 0.0049 difference: nothing is flagged
    have hfl : reportPriceMismatch
        (ResponseHandler.extract_numeric_price "1.100,0049") (1100 : ℚ) =
        false := by
      rw [hrh49]
      exact hreport49
    rw [show (ResponseHandler.validate_extraction_results
        [{ partname := "A1", tquant := 1, vatprice := 1100 }]
        [{ product_code := "A1", description := "", quantity := "1 EA",
           item_total := "1.100,0049" }]).price_mismatches =
        List.filter (fun c => reportPriceMismatch
          (ResponseHandler.extract_numeric_price
            (ResponseHandler.lastExtractedWith c
              [{ product_code := "A1", description := "", quantity := "1 EA",
                 item_total := "1.100,0049" }]).item_total)
          (lastPriorityWith c
            [{ partname := "A1", tquant := 1, vatprice := 1100 }]).vatprice)
          ["A1"] from rfl,
      filter_single_neg
        (fun c => reportPriceMismatch
          (ResponseHandler.extract_numeric_price
            (ResponseHandler.lastExtractedWith c
              [{ product_code := "A1", description := "", quantity := "1 EA",
                 item_total := "1.100,0049" }]).item_total)
          (lastPriorityWith c
            [{ partname := "A1", tquant := 1, vatprice := 1100 }]).vatprice)
        "A1" hfl]

/-- C8 counterexample: on the unparseable date 31.02.2025 the calculator
does not return the input unmodified, it returns the input with the
periods replaced by slashes. -/
theorem date_fallback_counterexample :
    PriorityAPI.calculate_priority_date "31.02.2025" "Somewhere" =
      "31/02/2025" ∧
    ("31/02/2025" : String) ≠ "31.02.2025" := by
  refine ⟨by decide, by decide⟩

/-- C8 amended: on every malformed date input the calculator never
raises (the embedding is total) and returns the fallback string: the
input with every period replaced by a slash when the input contains a
period, otherwise the input unmodified, so the bad field surfaces as a
downstream mismatch rather than a crash. -/
theorem date_fallback_on_malformed (s addr : String)
    (h : parseDeliveryDate s = none) :
    PriorityAPI.calculate_priority_date s addr =
      (if s.data.contains '.' then
        String.mk (s.data.map (fun c => if c = '.' then '/' else c))
      else s) := by
  unfold PriorityAPI.calculate_priority_date
  rw [h]
  rfl

/-- Witness for the amended C8 on the malformed date 31.02.2025. -/
theorem date_fallback_on_malformed_witness :
    PriorityAPI.calculate_priority_date "31.02.2025" "x" =
      (if ("31.02.2025" : String).data.contains '.' then
        String.mk (("31.02.2025" : String).data.map
          (fun c => if c = '.' then '/' else c))
      else "31.02.2025") :=
  date_fallback_on_malformed "31.02.2025" "x" (by decide)

/-- C4 counterexample, against each cited normalizer.  On "1,234" the
claimed comma rule (a single comma followed by three digits is a
thousands separator) would give 1234, but the priority_api normalizer
treats the comma as a decimal point and returns 1.234.  clean_number
also violates the claimed rules: on the claim's own example
"USD 1,234.56" it returns 1.23456 rather than 1234.56 (the comma makes
it delete the period and read the comma as the decimal point, ignoring
which separator is rightmost), and on "1.234" it returns 1.234 rather
than the 1234 the one-period-three-digits thousands rule demands. -/
theorem comma_rule_counterexample :
    PriorityAPI.extract_numeric_price "1,234" = 617 / 500 ∧
    OrderValidator.clean_number "USD 1,234.56" = 3858 / 3125 ∧
    OrderValidator.clean_number "1.234" = 617 / 500 ∧
    (617 / 500 : ℚ) ≠ 1234 ∧
    (3858 / 3125 : ℚ) ≠ 1234.56 := by
  refine ⟨?_, ?_, ?_, by norm_num, by norm_num⟩
  · rw [show PriorityAPI.extract_numeric_price "1,234" =
        ((natVal ['1'] : ℚ) +
          (natVal ['2', '3', '4'] : ℚ) / (10 : ℚ) ^ (3 : ℕ)) from rfl,
      show natVal ['1'] = 1 from rfl,
      show natVal ['2', '3', '4'] = 234 from rfl]
    norm_num
  · rw [show OrderValidator.clean_number "USD 1,234.56" =
        ((natVal ['1'] : ℚ) +
          (natVal ['2', '3', '4', '5', '6'] : ℚ) / (10 : ℚ) ^ (5 : ℕ))
        from rfl,
      show natVal ['1'] = 1 from rfl,
      show natVal ['2', '3', '4', '5', '6'] = 23456 from rfl]
    norm_num
  · rw [show OrderValidator.clean_number "1.234" =
        ((natVal ['1'] : ℚ) +
          (natVal ['2', '3', '4'] : ℚ) / (10 : ℚ) ^ (3 : ℕ)) from rfl,
      show natVal ['1'] = 1 from rfl,
      show natVal ['2', '3', '4'] = 234 from rfl]
    norm_num

/-- C9 counterexample: the _extract_numeric_price normalizer deletes a
trailing dash instead of negating, returning 129 rather than -129 on
"129.00-"; only clean_number implements the discount convention. -/
theorem trailing_dash_counterexample :
    PriorityAPI.extract_numeric_price "129.00-" = 129 ∧
    (129 : ℚ) ≠ -129 ∧
    OrderValidator.clean_number "129.00-" = -129 := by
  refine ⟨?_, by norm_num, ?_⟩
  · rw [show PriorityAPI.extract_numeric_price "129.00-" =
        ((natVal ['1', '2', '9'] : ℚ) +
          (natVal ['0', '0'] : ℚ) / (10 : ℚ) ^ (2 : ℕ)) from rfl,
      show natVal ['1', '2', '9'] = 129 from rfl,
      show natVal ['0', '0'] = 0 from rfl]
    norm_num
  · rw [show OrderValidator.clean_number "129.00-" =
        -((natVal ['1', '2', '9'] : ℚ) +
          (natVal ['0', '0'] : ℚ) / (10 : ℚ) ^ (2 : ℕ)) from rfl,
      show natVal ['1', '2', '9'] = 129 from rfl,
      show natVal ['0', '0'] = 0 from rfl]
    norm_num

/-- C1: for every validation result in which a total-price comparison
was attempted, the final status written by update_final_status is
Approved exactly when all five criteria hold (total-price match,
all_items_valid, item_count_match, no missing_in_ai entries, shipping
validation pass), and is SentBackForReview exactly when at least one of
them fails. -/
theorem final_status_approved_iff (pv : PriorityAPI.PriceValidation)
    (hatt : pv.validation_attempted = true) :
    (PriorityAPI.update_final_status pv = some PriorityAPI.approvedStatus ↔
      (pv.price_match = true ∧
       pv.item_validation.all_items_valid = true ∧
       pv.item_validation.item_count_match = true ∧
       pv.item_validation.missing_in_ai = [] ∧
       pv.shipping_validation.shipping_validation_passed = true)) ∧
    (PriorityAPI.update_final_status pv = some PriorityAPI.sentBackStatus ↔
      ¬(pv.price_match = true ∧
        pv.item_validation.all_items_valid = true ∧
        pv.item_validation.item_count_match = true ∧
        pv.item_validation.missing_in_ai = [] ∧
        pv.shipping_validation.shipping_validation_passed = true)) := by
  have hne : PriorityAPI.approvedStatus ≠ PriorityAPI.sentBackStatus := by
    decide
  have hcond : (pv.price_match && pv.item_validation.all_items_valid &&
      pv.item_validation.item_count_match &&
      pv.shipping_validation.shipping_validation_passed &&
      decide (pv.item_validation.missing_in_ai.length = 0)) = true ↔
      (pv.price_match = true ∧
       pv.item_validation.all_items_valid = true ∧
       pv.item_validation.item_count_match = true ∧
       pv.item_validation.missing_in_ai = [] ∧
       pv.shipping_validation.shipping_validation_passed = true) := by
    simp only [Bool.and_eq_true, decide_eq_true_eq, List.length_eq_zero]
    tauto
  unfold PriorityAPI.update_final_status
  rw [hatt]
  simp only [if_true]
  by_cases h : (pv.price_match && pv.item_validation.all_items_valid &&
      pv.item_validation.item_count_match &&
      pv.shipping_validation.shipping_validation_passed &&
      decide (pv.item_validation.missing_in_ai.length = 0)) = true
  · rw [if_pos h]
    constructor
    · exact ⟨fun _ => hcond.mp h, fun _ => rfl⟩
    · constructor
      · intro heq
        exact absurd (Option.some.inj heq) hne
      · intro habs
        exact absurd (hcond.mp h) habs
  · rw [if_neg h]
    constructor
    · constructor
      · intro heq
        exact absurd (Option.some.inj heq).symm hne
      · intro hall
        exact absurd (hcond.mpr hall) h
    · exact ⟨fun _ hall => h (hcond.mpr hall), fun _ => rfl⟩

/-- Witness for C1: a fully matching validation result (empty item
lists, no shipping on either side, matching total) is approved. -/
theorem final_status_approved_iff_witness :
    PriorityAPI.update_final_status
      { validation_attempted := true
        price_match := true
        item_validation := PriorityAPI.validate_items_detail [] []
        shipping_validation := PriorityAPI.validate_shipping_charges [] [] none } =
      some PriorityAPI.approvedStatus :=
  ((final_status_approved_iff _ rfl).1).mpr (by decide)

/-- C7: when no total-price comparison was attempted, update_final_status
performs no status transition at all: no terminal status is written and
the prior authoritative status is left untouched. -/
theorem final_status_no_validation (pv : PriorityAPI.PriceValidation)
    (h : pv.validation_attempted = false) :
    PriorityAPI.update_final_status pv = none := by
  unfold PriorityAPI.update_final_status
  rw [h]
  simp

/-- Witness for C7: with validation_attempted unset no status is
written, whatever the other validation outcomes say. -/
theorem final_status_no_validation_witness :
    PriorityAPI.update_final_status
      { validation_attempted := false
        price_match := false
        item_validation := PriorityAPI.validate_items_detail [] []
        shipping_validation := PriorityAPI.validate_shipping_charges [] [] none } =
      none :=
  final_status_no_validation _ rfl

/-- C2: validate_shipping_charges lands in exactly one of the four
presence cases, and its pass flag follows the decision table: with
shipping on both sides it passes exactly when the authoritative shipping
total and the extracted shipping price differ by strictly less than
0.01; with shipping on one side only it fails; with shipping on neither
side it passes. -/
theorem shipping_four_case_table (priority : List PriorityItem)
    (ai : List AIItem) (hint : Option PriorityAPI.ShipInfo) :
    let r := PriorityAPI.validate_shipping_charges priority ai hint
    let authItems := priority.filter (fun p => isShippingCode p.partname)
    let authTotal := (authItems.map (fun p => p.vatprice)).sum
    let info := match hint with
      | some h => some h
      | none => PriorityAPI.extract_ai_shipping_info ai
    (r.validation_case =
      if !authItems.isEmpty then
        if info.isSome then "both_exist_compare_prices"
        else "priority_has_ai_missing"
      else
        if info.isSome then "ai_has_priority_missing"
        else "neither_has_shipping") ∧
    (r.shipping_validation_passed =
      match info with
      | some h => !authItems.isEmpty &&
          decide (|authTotal - h.price_numeric| < 1 / 100)
      | none => authItems.isEmpty) := by
  have hmap : ∀ l : List PriorityItem,
      ((l.map (fun p => (p.partname, p.vatprice))).map (fun x => x.2)) =
        l.map (fun p => p.vatprice) := by
    intro l
    rw [List.map_map]
    rfl
  cases hint with
  | some h =>
    by_cases hp : ∃ x ∈ priority, isShippingCode x.partname = true
    · simp [PriorityAPI.validate_shipping_charges, hp, hmap]
    · simp [PriorityAPI.validate_shipping_charges, hp, hmap]
  | none =>
    cases hx : PriorityAPI.extract_ai_shipping_info ai with
    | some h =>
      by_cases hp : ∃ x ∈ priority, isShippingCode x.partname = true
      · simp [PriorityAPI.validate_shipping_charges, hx, hp, hmap]
      · simp [PriorityAPI.validate_shipping_charges, hx, hp, hmap]
    | none =>
      by_cases hp : ∃ x ∈ priority, isShippingCode x.partname = true
      · simp [PriorityAPI.validate_shipping_charges, hx, hp, hmap]
      · simp [PriorityAPI.validate_shipping_charges, hx, hp, hmap]
        intro a ha
        cases hc : isShippingCode a.partname
        · rfl
        · exact absurd ⟨a, ha, hc⟩ hp

/-! ## Character and string lemmas for the normalizer theorems -/

/-- Boolean containment agrees with membership. -/
theorem contains_eq_true_iff (l : List Char) (c : Char) :
    l.contains c = true ↔ c ∈ l := by
  simp [List.contains]

/-- Containment is false off the list. -/
theorem contains_eq_false (l : List Char) (c : Char) (h : c ∉ l) :
    l.contains c = false := by
  rw [← Bool.not_eq_true, contains_eq_true_iff]
  exact h

/-- The digit test is membership in the digit list. -/
theorem isDig_mem (c : Char) : isDig c = true ↔ c ∈ digitChars := by
  simp [isDig, List.contains]

/-- A digit character differs from any non-digit character. -/
theorem ne_of_dig {c x : Char} (hc : isDig c = true) (hx : isDig x = false) :
    c ≠ x := by
  intro h
  rw [h, hx] at hc
  exact absurd hc (by decide)

/-- A non-digit character is not in an all-digit list. -/
theorem not_mem_of_all_dig {l : List Char} (h : l.all isDig = true)
    {x : Char} (hx : isDig x = false) : x ∉ l := by
  intro hm
  rw [List.all_eq_true] at h
  exact absurd (h x hm) (by rw [hx]; decide)

/-- A digit character is kept by the price-cleaning character class. -/
theorem keep_of_dig {c : Char} (hc : isDig c = true) :
    keepPriceChar c = true := by
  unfold keepPriceChar
  rw [hc]
  rfl

/-- A digit character is not whitespace. -/
theorem dig_not_ws {c : Char} (hc : isDig c = true) : isWs c = false := by
  have hm := (isDig_mem c).mp hc
  fin_cases hm <;> decide

/-- A price character (digit, period or comma) is not whitespace. -/
theorem keep_not_ws {c : Char} (hc : keepPriceChar c = true) :
    isWs c = false := by
  unfold keepPriceChar at hc
  rcases Bool.or_eq_true_iff.mp hc with h | h
  · rcases Bool.or_eq_true_iff.mp h with h1 | h1
    · exact dig_not_ws h1
    · rw [show c = '.' by exact of_decide_eq_true h1]
      decide
  · rw [show c = ',' by exact of_decide_eq_true h]
    decide

/-- A price character is not the letter U. -/
theorem keep_ne_U {c : Char} (hc : keepPriceChar c = true) : c ≠ 'U' := by
  intro h
  rw [h] at hc
  exact absurd hc (by decide)

/-- splitSep never returns the empty list of pieces. -/
theorem splitSep_ne_nil (sep : Char) (l : List Char) :
    splitSep sep l ≠ [] := by
  induction l with
  | nil => simp [splitSep]
  | cons c cs ih =>
    simp only [splitSep]
    rcases h : splitSep sep cs with _ | ⟨hd, tl⟩
    · exact absurd h ih
    · by_cases hc : c = sep <;> simp [hc]

/-- Splitting a list avoiding the separator gives the single piece. -/
theorem splitSep_not_mem (sep : Char) (l : List Char) (h : sep ∉ l) :
    splitSep sep l = [l] := by
  induction l with
  | nil => rfl
  | cons c cs ih =>
    have hc : ¬c = sep := fun e => h (e ▸ List.mem_cons_self c cs)
    have hcs : sep ∉ cs := fun m => h (List.mem_cons_of_mem _ m)
    simp only [splitSep, ih hcs]
    simp [hc]

/-- Splitting around one separator occurrence peels off the first
piece. -/
theorem splitSep_append (sep : Char) (a b : List Char) (ha : sep ∉ a) :
    splitSep sep (a ++ sep :: b) = a :: splitSep sep b := by
  induction a with
  | nil =>
    simp only [List.nil_append, splitSep]
    rcases h : splitSep sep b with _ | ⟨hd, tl⟩
    · exact absurd h (splitSep_ne_nil sep b)
    · simp
  | cons c cs ih =>
    have hc : ¬c = sep := fun e => ha (e ▸ List.mem_cons_self c cs)
    have hcs : sep ∉ cs := fun m => ha (List.mem_cons_of_mem _ m)
    show splitSep sep (c :: (cs ++ sep :: b)) = (c :: cs) :: splitSep sep b
    simp only [splitSep]
    rw [ih hcs]
    simp [hc]

/-- dropWhile does nothing when no element satisfies the test. -/
theorem dropWhile_eq_self_of_none {p : Char → Bool} {l : List Char}
    (h : ∀ c ∈ l, p c = false) : l.dropWhile p = l := by
  cases l with
  | nil => rfl
  | cons c cs =>
    have hc := h c (List.mem_cons_self c cs)
    simp [List.dropWhile, hc]

/-- Stripping whitespace does nothing to a whitespace-free list. -/
theorem stripWs_of_no_ws {l : List Char} (h : ∀ c ∈ l, isWs c = false) :
    stripWs l = l := by
  unfold stripWs
  rw [dropWhile_eq_self_of_none h,
    dropWhile_eq_self_of_none (fun c hc => h c (List.mem_reverse.mp hc)),
    List.reverse_reverse]

/-- Deleting USD does nothing to a list without the letter U. -/
theorem removeUSD_of_no_U {l : List Char} (h : ∀ c ∈ l, c ≠ 'U') :
    removeUSD l = l := by
  induction l with
  | nil => rfl
  | cons c cs ih =>
    have hc : c ≠ 'U' := h c (List.mem_cons_self c cs)
    have hcs : ∀ x ∈ cs, x ≠ 'U' := fun x hx => h x (List.mem_cons_of_mem _ hx)
    rw [removeUSD.eq_def]
    split
    · next rest heq =>
      rw [List.cons.injEq] at heq
      exact absurd heq.1 hc
    · next c2 cs2 heq =>
      rw [List.cons.injEq] at heq
      rw [← heq.1, ← heq.2, ih hcs]
    · next heq => exact absurd heq (by simp)

/-- The base-10 value of a concatenation. -/
theorem natVal_append (a b : List Char) :
    natVal (a ++ b) = natVal a * 10 ^ b.length + natVal b := by
  have haux : ∀ (l : List Char) (acc : ℕ),
      l.foldl (fun x c => 10 * x + digitVal c) acc =
        acc * 10 ^ l.length + natVal l := by
    intro l
    induction l with
    | nil => intro acc; simp [natVal]
    | cons c cs ih =>
      intro acc
      have hval : natVal (c :: cs) = digitVal c * 10 ^ cs.length + natVal cs := by
        show List.foldl (fun x c => 10 * x + digitVal c) (10 * 0 + digitVal c) cs =
          digitVal c * 10 ^ cs.length + natVal cs
        rw [show 10 * 0 + digitVal c = digitVal c by omega]
        exact ih (digitVal c)
      simp only [List.foldl_cons, List.length_cons]
      rw [ih (10 * acc + digitVal c), hval]
      ring
  unfold natVal
  rw [List.foldl_append]
  exact haux b (natVal a)

/-- float() on an all-digit string is its base-10 value. -/
theorem pyFloat_digits {l : List Char} (hne : l ≠ [])
    (hd : l.all isDig = true) :
    pyFloatDigitsDots l = some ((natVal l : ℚ)) := by
  unfold pyFloatDigitsDots
  have hdot : '.' ∉ l := not_mem_of_all_dig hd (by decide)
  rw [splitSep_not_mem '.' l hdot]
  have hany : l.any isDig = true := by
    rcases l with _ | ⟨c, cs⟩
    · exact absurd rfl hne
    · rw [List.all_cons, Bool.and_eq_true] at hd
      simp [List.any_cons, hd.1]
  have hall : l.all (fun c => isDig c || c == '.') = true := by
    rw [List.all_eq_true] at hd ⊢
    intro c hcm
    rw [Bool.or_eq_true_iff]
    exact Or.inl (hd c hcm)
  rw [hany, hall]
  rfl

/-- float() on a digits-dot-digits string is the decimal value. -/
theorem pyFloat_dot {a b : List Char} (hne : a ≠ [])
    (hda : a.all isDig = true) (hdb : b.all isDig = true) :
    pyFloatDigitsDots (a ++ '.' :: b) =
      some ((natVal a : ℚ) + (natVal b : ℚ) / (10 : ℚ) ^ b.length) := by
  unfold pyFloatDigitsDots
  have hdota : '.' ∉ a := not_mem_of_all_dig hda (by decide)
  have hdotb : '.' ∉ b := not_mem_of_all_dig hdb (by decide)
  rw [splitSep_append '.' a b hdota, splitSep_not_mem '.' b hdotb]
  have hany : (a ++ '.' :: b).any isDig = true := by
    rcases a with _ | ⟨c, cs⟩
    · exact absurd rfl hne
    · rw [List.all_cons, Bool.and_eq_true] at hda
      simp [List.any_cons, hda.1]
  have hall : (a ++ '.' :: b).all (fun c => isDig c || c == '.') = true := by
    rw [List.all_eq_true]
    intro c hcm
    rw [Bool.or_eq_true_iff]
    rcases List.mem_append.mp hcm with hm | hm
    · exact Or.inl (List.all_eq_true.mp hda c hm)
    · rcases List.mem_cons.mp hm with rfl | hm
      · exact Or.inr (by decide)
      · exact Or.inl (List.all_eq_true.mp hdb c hm)
  rw [hany, hall]
  rfl

/-- int() on a nonempty all-digit string is its base-10 value. -/
theorem pyIntList_digits {l : List Char} (hne : l ≠ [])
    (hd : l.all isDig = true) :
    pyIntList l = some ((natVal l : ℤ)) := by
  have hnws : ∀ c ∈ l, isWs c = false :=
    fun c hc => dig_not_ws (List.all_eq_true.mp hd c hc)
  have hus : '_' ∉ l := not_mem_of_all_dig hd (by decide)
  have hok : underscoreGroupsOk l = true := by
    unfold underscoreGroupsOk
    rw [splitSep_not_mem '_' l hus]
    have : ¬l.isEmpty = true := by
      rw [List.isEmpty_iff]
      exact hne
    simp [List.all_cons, hd, this]
  have hfil : l.filter (· ≠ '_') = l := by
    rw [List.filter_eq_self]
    intro c hc
    exact decide_eq_true (ne_of_dig (List.all_eq_true.mp hd c hc) (by decide))
  unfold pyIntList
  rw [stripWs_of_no_ws hnws]
  rcases l with _ | ⟨c, cs⟩
  · exact absurd rfl hne
  · have hc : isDig c = true := by
      rw [List.all_cons, Bool.and_eq_true] at hd
      exact hd.1
    have hcm : c ≠ '-' := ne_of_dig hc (by decide)
    have hcp : c ≠ '+' := ne_of_dig hc (by decide)
    split
    · next r heq =>
      rw [List.cons.injEq] at heq
      exact absurd heq.1 hcm
    · next r heq =>
      rw [List.cons.injEq] at heq
      exact absurd heq.1 hcp
    · rw [hok, hfil]
      simp

/-- An all-digit list keeps every character under the price-cleaning
class. -/
theorem filter_keep_of_dig {l : List Char} (hd : l.all isDig = true) :
    l.filter keepPriceChar = l := by
  rw [List.filter_eq_self]
  intro c hc
  exact keep_of_dig (List.all_eq_true.mp hd c hc)

/-- commaToDot does nothing to an all-digit list. -/
theorem commaToDot_of_dig {l : List Char} (hd : l.all isDig = true) :
    commaToDot l = l := by
  unfold commaToDot
  rw [List.map_congr_left, List.map_id]
  intro c hc
  simp [ne_of_dig (List.all_eq_true.mp hd c hc) (show isDig ',' = false by decide)]

/-- Filtering out a character absent from an all-digit list does
nothing. -/
theorem filter_ne_of_dig {l : List Char} (hd : l.all isDig = true)
    {x : Char} (hx : isDig x = false) : l.filter (· ≠ x) = l := by
  rw [List.filter_eq_self]
  intro c hc
  exact decide_eq_true (ne_of_dig (List.all_eq_true.mp hd c hc) hx)

/-- find? fails on an all-digit list for the separator test. -/
theorem find_sep_of_dig {l : List Char} (hd : l.all isDig = true) :
    l.find? (fun c => c == ',' || c == '.') = none := by
  rw [List.find?_eq_none]
  intro x hx
  have hdx := List.all_eq_true.mp hd x hx
  rw [Bool.or_eq_true_iff]
  rintro (h | h)
  · exact absurd (of_decide_eq_true h) (ne_of_dig hdx (by decide))
  · exact absurd (of_decide_eq_true h) (ne_of_dig hdx (by decide))

/-- An element named by getLast? belongs to the list. -/
theorem mem_of_getLast?_eq {l : List Char} {c : Char}
    (h : l.getLast? = some c) : c ∈ l := by
  rcases List.mem_getLast?_eq_getLast (Option.mem_def.mpr h) with ⟨hne, rfl⟩
  exact List.getLast_mem hne

/-- Mapping negation through an optional value negates its getD 0. -/
theorem map_neg_getD (o : Option ℚ) :
    (o.map Neg.neg).getD 0 = -(o.getD 0) := by
  cases o <;> simp

/-- Decimal() on a string with no sign character and no whitespace is
plain float() parsing. -/
theorem pyDecimal_no_sign (t : List Char)
    (ht : ∀ c ∈ t, c ≠ '-' ∧ c ≠ '+' ∧ isWs c = false) :
    pyDecimal t = pyFloatDigitsDots t := by
  unfold pyDecimal
  rw [stripWs_of_no_ws (fun c hc => (ht c hc).2.2)]
  rcases t with _ | ⟨c, r⟩
  · rfl
  · split
    · next r2 heq =>
      rw [List.cons.injEq] at heq
      exact absurd heq.1 (ht c (List.mem_cons_self c r)).1
    · next r2 heq =>
      rw [List.cons.injEq] at heq
      exact absurd heq.1 (ht c (List.mem_cons_self c r)).2.1
    · rfl

/-- Decimal() on a dash followed by a whitespace-free body negates the
body value. -/
theorem pyDecimal_dash (t : List Char)
    (ht : ∀ c ∈ t, isWs c = false) :
    pyDecimal ('-' :: t) = (pyFloatDigitsDots t).map Neg.neg := by
  unfold pyDecimal
  rw [stripWs_of_no_ws ?hws]
  case hws =>
    intro c hc
    rcases List.mem_cons.mp hc with rfl | hm
    · decide
    · exact ht c hm
  rfl

/-- The dash-to-front step of clean_number does nothing to a string that
does not end in a dash. -/
theorem dash_step_of_no_dash (t : List Char)
    (ht : ∀ c ∈ t, c ≠ '-') :
    (if t.getLast? = some '-' then '-' :: t.dropLast else t) = t := by
  rcases hgl : t.getLast? with _ | c
  · simp
  · have hc : c ≠ '-' := ht c (mem_of_getLast?_eq hgl)
    rw [if_neg]
    intro heq
    exact hc (Option.some.inj heq)

/-- Appending a dash to a sign-free whitespace-free numeric body and
running the dash-to-front step and Decimal() of clean_number negates the
value obtained without the dash. -/
theorem dash_suffix_value (t : List Char)
    (ht : ∀ c ∈ t, c ≠ '-' ∧ c ≠ '+' ∧ isWs c = false) :
    (pyDecimal (if (t ++ ['-']).getLast? = some '-' then
        '-' :: (t ++ ['-']).dropLast else t ++ ['-'])).getD 0 =
      -((pyDecimal (if t.getLast? = some '-' then
          '-' :: t.dropLast else t)).getD 0 : ℚ) := by
  rw [List.getLast?_concat, if_pos rfl, List.dropLast_concat,
    pyDecimal_dash t (fun c hc => (ht c hc).2.2),
    dash_step_of_no_dash t (fun c hc => (ht c hc).1),
    pyDecimal_no_sign t ht, map_neg_getD]

/-- A price character is not a dash. -/
theorem keep_ne_dash {c : Char} (hc : keepPriceChar c = true) : c ≠ '-' := by
  intro h
  rw [h] at hc
  exact absurd hc (by decide)

/-- A price character is not a plus sign. -/
theorem keep_ne_plus {c : Char} (hc : keepPriceChar c = true) : c ≠ '+' := by
  intro h
  rw [h] at hc
  exact absurd hc (by decide)

/-- C9 amended: on every numeric input (digits, periods and commas) a
trailing dash makes clean_number return the negation of the value of the
string without the dash, implementing the discount convention; the two
_extract_numeric_price normalizers instead delete the dash and return
the same value as without it. -/
theorem trailing_dash_negates (s : String)
    (h : s.data.all keepPriceChar = true) :
    OrderValidator.clean_number (s.push '-') =
      -(OrderValidator.clean_number s) ∧
    PriorityAPI.extract_numeric_price (s.push '-') =
      PriorityAPI.extract_numeric_price s ∧
    ResponseHandler.extract_numeric_price (s.push '-') =
      ResponseHandler.extract_numeric_price s := by
  have hdata : (s.push '-').data = s.data ++ ['-'] := rfl
  have hfil : (s.data ++ ['-']).filter keepPriceChar =
      s.data.filter keepPriceChar := by
    rw [List.filter_append, show List.filter keepPriceChar ['-'] = [] from rfl,
      List.append_nil]
  refine ⟨?_, ?_, ?_⟩
  · by_cases hs : s = ""
    · subst hs
      show OrderValidator.clean_number "-" = -(OrderValidator.clean_number "")
      rw [show OrderValidator.clean_number "-" = 0 from rfl,
        show OrderValidator.clean_number "" = 0 from rfl]
      norm_num
    · have hne2 : ¬s.push '-' = "" := by
        intro heq
        have h2 := congrArg String.data heq
        rw [hdata] at h2
        simp at h2
      have hWs : ∀ c ∈ s.data, isWs c = false :=
        fun c hc => keep_not_ws (List.all_eq_true.mp h c hc)
      have hU : ∀ c ∈ s.data, c ≠ 'U' :=
        fun c hc => keep_ne_U (List.all_eq_true.mp h c hc)
      have hWs2 : ∀ c ∈ s.data ++ ['-'], isWs c = false := by
        intro c hc
        rcases List.mem_append.mp hc with hm | hm
        · exact hWs c hm
        · rcases List.mem_cons.mp hm with rfl | hm2
          · decide
          · exact absurd hm2 (List.not_mem_nil c)
      have hU2 : ∀ c ∈ s.data ++ ['-'], c ≠ 'U' := by
        intro c hc
        rcases List.mem_append.mp hc with hm | hm
        · exact hU c hm
        · rcases List.mem_cons.mp hm with rfl | hm2
          · decide
          · exact absurd hm2 (List.not_mem_nil c)
      have htail : ∀ c ∈ s.data, c ≠ '-' ∧ c ≠ '+' ∧ isWs c = false := by
        intro c hc
        have hk := List.all_eq_true.mp h c hc
        exact ⟨keep_ne_dash hk, keep_ne_plus hk, keep_not_ws hk⟩
      have htail2 : ∀ c ∈ commaToDot (List.filter (· ≠ '.') s.data),
          c ≠ '-' ∧ c ≠ '+' ∧ isWs c = false := by
        intro c hc
        unfold commaToDot at hc
        rcases List.mem_map.mp hc with ⟨c0, hc0, rfl⟩
        have hc0m : c0 ∈ s.data := (List.mem_filter.mp hc0).1
        have hk := List.all_eq_true.mp h c0 hc0m
        by_cases hcomma : c0 = ','
        · rw [if_pos hcomma]
          refine ⟨by decide, by decide, by decide⟩
        · rw [if_neg hcomma]
          exact ⟨keep_ne_dash hk, keep_ne_plus hk, keep_not_ws hk⟩
      simp only [OrderValidator.clean_number]
      rw [if_neg hne2, if_neg hs, hdata, removeUSD_of_no_U hU2,
        stripWs_of_no_ws hWs2, removeUSD_of_no_U hU,
        stripWs_of_no_ws hWs]
      by_cases hcm : ',' ∈ s.data
      · have hc1 : (s.data ++ ['-']).contains ',' = true :=
          (contains_eq_true_iff _ _).mpr (List.mem_append.mpr (Or.inl hcm))
        have hc2 : s.data.contains ',' = true :=
          (contains_eq_true_iff _ _).mpr hcm
        rw [hc1, hc2, if_pos rfl, if_pos rfl, List.filter_append,
          show List.filter (· ≠ '.') ['-'] = ['-'] from rfl,
          show commaToDot (List.filter (· ≠ '.') s.data ++ ['-']) =
            commaToDot (List.filter (· ≠ '.') s.data) ++ ['-'] from by
              unfold commaToDot
              rw [List.map_append]
              rfl]
        exact dash_suffix_value _ htail2
      · have hc1 : (s.data ++ ['-']).contains ',' = false := by
          refine contains_eq_false _ _ ?_
          intro hm
          rcases List.mem_append.mp hm with hm2 | hm2
          · exact hcm hm2
          · rcases List.mem_cons.mp hm2 with heq | hm3
            · exact absurd heq (by decide)
            · exact absurd hm3 (List.not_mem_nil ',')
        have hc2 : s.data.contains ',' = false := contains_eq_false _ _ hcm
        rw [hc1, hc2, if_neg (show ¬false = true by decide),
          if_neg (show ¬false = true by decide)]
        exact dash_suffix_value _ htail
  · simp only [PriorityAPI.extract_numeric_price, hdata, hfil]
  · simp only [ResponseHandler.extract_numeric_price, hdata, hfil]

/-- Witness for the amended C9 on the European-format amount 129,00. -/
theorem trailing_dash_negates_witness :
    ("129,00" : String).data.all keepPriceChar = true ∧
    (OrderValidator.clean_number (("129,00" : String).push '-') =
      -(OrderValidator.clean_number "129,00") ∧
    PriorityAPI.extract_numeric_price (("129,00" : String).push '-') =
      PriorityAPI.extract_numeric_price "129,00" ∧
    ResponseHandler.extract_numeric_price (("129,00" : String).push '-') =
      ResponseHandler.extract_numeric_price "129,00") :=
  ⟨by decide, trailing_dash_negates "129,00" (by decide)⟩

/-- A character outside the price class is not in a list, all of whose
characters are in the class. -/
theorem not_mem_append_cons {x sep : Char} {a b : List Char}
    (hxa : x ∉ a) (hxs : x ≠ sep) (hxb : x ∉ b) : x ∉ a ++ sep :: b := by
  intro hm
  rcases List.mem_append.mp hm with hm2 | hm2
  · exact hxa hm2
  · rcases List.mem_cons.mp hm2 with hm3 | hm3
    · exact hxs hm3
    · exact hxb hm3

/-- A list of digits and decimal separators passes the price-cleaning
filter unchanged. -/
theorem filter_keep_of_digits_seps {l : List Char}
    (h : ∀ ch ∈ l, isDig ch = true ∨ ch = '.' ∨ ch = ',') :
    l.filter keepPriceChar = l := by
  rw [List.filter_eq_self]
  intro ch hch
  rcases h ch hch with hd | rfl | rfl
  · exact keep_of_dig hd
  · decide
  · decide

/-- Membership description for a digits-separator-digits shape. -/
theorem sep_shape2 {a b : List Char} {x : Char}
    (hda : a.all isDig = true) (hdb : b.all isDig = true)
    (hx : x = '.' ∨ x = ',') :
    ∀ ch ∈ a ++ x :: b, isDig ch = true ∨ ch = '.' ∨ ch = ',' := by
  intro ch hch
  rcases List.mem_append.mp hch with hm | hm
  · exact Or.inl (List.all_eq_true.mp hda ch hm)
  · rcases List.mem_cons.mp hm with rfl | hm2
    · exact Or.inr hx
    · exact Or.inl (List.all_eq_true.mp hdb ch hm2)

/-- Membership description for a three-block shape with two
separators. -/
theorem sep_shape3 {a b c : List Char} {x y : Char}
    (hda : a.all isDig = true) (hdb : b.all isDig = true)
    (hdc : c.all isDig = true) (hx : x = '.' ∨ x = ',')
    (hy : y = '.' ∨ y = ',') :
    ∀ ch ∈ a ++ x :: (b ++ y :: c), isDig ch = true ∨ ch = '.' ∨ ch = ',' := by
  intro ch hch
  rcases List.mem_append.mp hch with hm | hm
  · exact Or.inl (List.all_eq_true.mp hda ch hm)
  · rcases List.mem_cons.mp hm with rfl | hm2
    · exact Or.inr hx
    · exact sep_shape2 hdb hdc hy ch hm2

/-- A block-separator shape is never the empty string. -/
theorem isEmpty_append_cons (a : List Char) (x : Char) (b : List Char) :
    (a ++ x :: b).isEmpty = false := by
  cases a <;> rfl

/-- The priority_api price extractor on a string already free of
non-numeric characters, with the cleaning step discharged. -/
theorem priority_extract_eq (l : List Char)
    (hk : l.filter keepPriceChar = l) :
    PriorityAPI.extract_numeric_price (String.mk l) =
      (if l.isEmpty then 0
       else if l.contains ',' && l.contains '.' then
         if rightmostSepIsComma l then
           pyFloatOrZero (commaToDot (l.filter (· ≠ '.')))
         else pyFloatOrZero (l.filter (· ≠ ','))
       else if l.contains ',' then pyFloatOrZero (commaToDot l)
       else if l.contains '.' then
         if (splitSep '.' l).length = 2 &&
             ((splitSep '.' l).getD 1 []).length ≤ 2 then pyFloatOrZero l
         else pyFloatOrZero (l.filter (· ≠ '.'))
       else pyFloatOrZero l) := by
  simp only [PriorityAPI.extract_numeric_price]
  simp only [hk]

/-- The response_handler price extractor on a string already free of
non-numeric characters. -/
theorem rh_extract_eq (l : List Char)
    (hk : l.filter keepPriceChar = l) :
    ResponseHandler.extract_numeric_price (String.mk l) =
      (if l.isEmpty then 0
       else if l.contains ',' && l.contains '.' then
         if rightmostSepIsComma l then
           pyFloatOrZero (commaToDot (l.filter (· ≠ '.')))
         else pyFloatOrZero (l.filter (· ≠ ','))
       else if l.contains ',' then
         if (splitSep ',' l).length = 2 &&
             ((splitSep ',' l).getD 1 []).length ≤ 2 then
           pyFloatOrZero (commaToDot l)
         else if (splitSep ',' l).length = 2 &&
             ((splitSep ',' l).getD 1 []).length = 3 then
           if ((splitSep ',' l).getD 0 []).length ≤ 3 then
             pyFloatOrZero (l.filter (· ≠ ','))
           else pyFloatOrZero (commaToDot l)
         else pyFloatOrZero (l.filter (· ≠ ','))
       else if l.contains '.' then
         if (splitSep '.' l).length = 2 &&
             ((splitSep '.' l).getD 1 []).length ≤ 2 then pyFloatOrZero l
         else pyFloatOrZero (l.filter (· ≠ '.'))
       else pyFloatOrZero l) := by
  simp only [ResponseHandler.extract_numeric_price]
  simp only [hk]

/-- Reversing preserves digit-ness. -/
theorem all_dig_reverse {l : List Char} (h : l.all isDig = true) :
    l.reverse.all isDig = true := by
  rw [List.all_eq_true] at h ⊢
  intro x hx
  exact h x (List.mem_reverse.mp hx)

/-- commaToDot distributes over append. -/
theorem commaToDot_append (l1 l2 : List Char) :
    commaToDot (l1 ++ l2) = commaToDot l1 ++ commaToDot l2 := by
  unfold commaToDot
  rw [List.map_append]

/-- commaToDot turns a leading comma into a period. -/
theorem commaToDot_comma_cons (l : List Char) :
    commaToDot (',' :: l) = '.' :: commaToDot l := rfl

/-- commaToDot keeps a leading period. -/
theorem commaToDot_dot_cons (l : List Char) :
    commaToDot ('.' :: l) = '.' :: commaToDot l := rfl

/-- Universally quantified property over a digits-separator-digits
shape, given that it holds of digits and of the separator. -/
theorem forall_shape2 {a b : List Char} {x : Char} {P : Char → Prop}
    (hda : a.all isDig = true) (hdb : b.all isDig = true)
    (hdig : ∀ ch, isDig ch = true → P ch) (hx : P x) :
    ∀ ch ∈ a ++ x :: b, P ch := by
  intro ch hch
  rcases List.mem_append.mp hch with hm | hm
  · exact hdig ch (List.all_eq_true.mp hda ch hm)
  · rcases List.mem_cons.mp hm with rfl | hm2
    · exact hx
    · exact hdig ch (List.all_eq_true.mp hdb ch hm2)

/-- Universally quantified property over a three-block shape with two
separators. -/
theorem forall_shape3 {a b c : List Char} {x y : Char} {P : Char → Prop}
    (hda : a.all isDig = true) (hdb : b.all isDig = true)
    (hdc : c.all isDig = true) (hdig : ∀ ch, isDig ch = true → P ch)
    (hx : P x) (hy : P y) :
    ∀ ch ∈ a ++ x :: (b ++ y :: c), P ch := by
  intro ch hch
  rcases List.mem_append.mp hch with hm | hm
  · exact hdig ch (List.all_eq_true.mp hda ch hm)
  · rcases List.mem_cons.mp hm with rfl | hm2
    · exact hx
    · exact forall_shape2 hdb hdc hdig hy ch hm2

/-- clean_number on a nonempty string free of the letter U and of
whitespace, with the deletion and stripping steps discharged: what
remains is the comma branch, the dash-to-front step and Decimal(). -/
theorem clean_number_eq (l : List Char) (hne : l ≠ [])
    (hnoU : ∀ c ∈ l, c ≠ 'U') (hnoWs : ∀ c ∈ l, isWs c = false) :
    OrderValidator.clean_number (String.mk l) =
      (pyDecimal
        (if (if l.contains ',' then commaToDot (l.filter (· ≠ '.'))
            else l).getLast? = some '-' then
          '-' :: (if l.contains ',' then commaToDot (l.filter (· ≠ '.'))
            else l).dropLast
        else if l.contains ',' then commaToDot (l.filter (· ≠ '.'))
          else l)).getD 0 := by
  have h0 : ¬(String.mk l = "") := fun h => hne (congrArg String.data h)
  simp only [OrderValidator.clean_number]
  rw [if_neg h0, removeUSD_of_no_U hnoU, stripWs_of_no_ws hnoWs]

/-- C4 amended: how the three cited normalizers actually resolve decimal
and thousands separators on digit-block shapes.  For the two price
extractors: when both separators occur the rightmost one is the decimal
separator (here shown on the one-occurrence-each shapes); when only a
period occurs it is decimal exactly when at most two digits follow it;
when only a comma occurs the priority_api extractor always reads it as a
decimal separator, while the response_handler extractor reads it as
decimal for at most two following digits, as thousands for exactly three
following digits after an integer part of at most three digits, as
decimal for exactly three following digits after a longer integer part,
and as thousands otherwise.  OrderValidator.clean_number ignores
separator positions entirely: whenever a comma is present it deletes
every period and reads every comma as a decimal point (so on the
comma-then-period shape the comma, not the rightmost separator, becomes
the decimal point), and with no comma present a single period is always
the decimal separator however many digits follow.  The three contractual
examples evaluate as specified under both price extractors, and the
first and third also under clean_number (the second fails there, see the
counterexample). -/
theorem separator_resolution_rules (a b c : List Char)
    (hna : a ≠ []) (hnb : b ≠ []) (hnc : c ≠ [])
    (hda : a.all isDig = true) (hdb : b.all isDig = true)
    (hdc : c.all isDig = true) :
    (PriorityAPI.extract_numeric_price (String.mk (a ++ ',' :: b)) =
      (natVal a : ℚ) + (natVal b : ℚ) / (10 : ℚ) ^ b.length) ∧
    (ResponseHandler.extract_numeric_price (String.mk (a ++ ',' :: b)) =
      (if b.length ≤ 2 then
        (natVal a : ℚ) + (natVal b : ℚ) / (10 : ℚ) ^ b.length
       else if b.length = 3 ∧ a.length ≤ 3 then (natVal (a ++ b) : ℚ)
       else if b.length = 3 then
        (natVal a : ℚ) + (natVal b : ℚ) / (10 : ℚ) ^ b.length
       else (natVal (a ++ b) : ℚ))) ∧
    (PriorityAPI.extract_numeric_price (String.mk (a ++ '.' :: b)) =
      (if b.length ≤ 2 then
        (natVal a : ℚ) + (natVal b : ℚ) / (10 : ℚ) ^ b.length
       else (natVal (a ++ b) : ℚ))) ∧
    (ResponseHandler.extract_numeric_price (String.mk (a ++ '.' :: b)) =
      (if b.length ≤ 2 then
        (natVal a : ℚ) + (natVal b : ℚ) / (10 : ℚ) ^ b.length
       else (natVal (a ++ b) : ℚ))) ∧
    (PriorityAPI.extract_numeric_price
        (String.mk (a ++ '.' :: (b ++ ',' :: c))) =
      (natVal (a ++ b) : ℚ) + (natVal c : ℚ) / (10 : ℚ) ^ c.length) ∧
    (ResponseHandler.extract_numeric_price
        (String.mk (a ++ '.' :: (b ++ ',' :: c))) =
      (natVal (a ++ b) : ℚ) + (natVal c : ℚ) / (10 : ℚ) ^ c.length) ∧
    (PriorityAPI.extract_numeric_price
        (String.mk (a ++ ',' :: (b ++ '.' :: c))) =
      (natVal (a ++ b) : ℚ) + (natVal c : ℚ) / (10 : ℚ) ^ c.length) ∧
    (ResponseHandler.extract_numeric_price
        (String.mk (a ++ ',' :: (b ++ '.' :: c))) =
      (natVal (a ++ b) : ℚ) + (natVal c : ℚ) / (10 : ℚ) ^ c.length) ∧
    (OrderValidator.clean_number (String.mk (a ++ ',' :: b)) =
      (natVal a : ℚ) + (natVal b : ℚ) / (10 : ℚ) ^ b.length) ∧
    (OrderValidator.clean_number (String.mk (a ++ '.' :: b)) =
      (natVal a : ℚ) + (natVal b : ℚ) / (10 : ℚ) ^ b.length) ∧
    (OrderValidator.clean_number (String.mk (a ++ '.' :: (b ++ ',' :: c))) =
      (natVal (a ++ b) : ℚ) + (natVal c : ℚ) / (10 : ℚ) ^ c.length) ∧
    (OrderValidator.clean_number (String.mk (a ++ ',' :: (b ++ '.' :: c))) =
      (natVal a : ℚ) +
        (natVal (b ++ c) : ℚ) / (10 : ℚ) ^ (b ++ c).length) ∧
    PriorityAPI.extract_numeric_price "USD 7.157,16" = 7157.16 ∧
    ResponseHandler.extract_numeric_price "USD 7.157,16" = 7157.16 ∧
    PriorityAPI.extract_numeric_price "USD 1,234.56" = 1234.56 ∧
    ResponseHandler.extract_numeric_price "USD 1,234.56" = 1234.56 ∧
    PriorityAPI.extract_numeric_price "USD 129,00" = 129 ∧
    ResponseHandler.extract_numeric_price "USD 129,00" = 129 ∧
    OrderValidator.clean_number "USD 7.157,16" = 7157.16 ∧
    OrderValidator.clean_number "USD 129,00" = 129 := by
  have fneq : ¬false = true := by decide
  have hdot_a : '.' ∉ a := not_mem_of_all_dig hda (by decide)
  have hdot_b : '.' ∉ b := not_mem_of_all_dig hdb (by decide)
  have hdot_c : '.' ∉ c := not_mem_of_all_dig hdc (by decide)
  have hcom_a : ',' ∉ a := not_mem_of_all_dig hda (by decide)
  have hcom_b : ',' ∉ b := not_mem_of_all_dig hdb (by decide)
  have hcom_c : ',' ∉ c := not_mem_of_all_dig hdc (by decide)
  have hdab : (a ++ b).all isDig = true := by
    rw [List.all_append, hda, hdb]
    rfl
  have hne_ab : a ++ b ≠ [] := fun h => hna (List.append_eq_nil.mp h).1
  have hv_ab : pyFloatOrZero (a ++ '.' :: b) =
      (natVal a : ℚ) + (natVal b : ℚ) / (10 : ℚ) ^ b.length := by
    unfold pyFloatOrZero
    rw [pyFloat_dot hna hda hdb]
    rfl
  have hv_th : pyFloatOrZero (a ++ b) = (natVal (a ++ b) : ℚ) := by
    unfold pyFloatOrZero
    rw [pyFloat_digits hne_ab hdab]
    rfl
  have hv_abc : pyFloatOrZero ((a ++ b) ++ '.' :: c) =
      (natVal (a ++ b) : ℚ) + (natVal c : ℚ) / (10 : ℚ) ^ c.length := by
    unfold pyFloatOrZero
    rw [pyFloat_dot hne_ab hdab hdc]
    rfl
  -- facts for the comma-only shape
  have hk1 : (a ++ ',' :: b).filter keepPriceChar = a ++ ',' :: b :=
    filter_keep_of_digits_seps (sep_shape2 hda hdb (Or.inr rfl))
  have hie1 : (a ++ ',' :: b).isEmpty = false := isEmpty_append_cons a ',' b
  have hcm1 : (a ++ ',' :: b).contains ',' = true :=
    (contains_eq_true_iff _ _).mpr
      (List.mem_append.mpr (Or.inr (List.mem_cons_self ',' b)))
  have hdt1 : (a ++ ',' :: b).contains '.' = false :=
    contains_eq_false _ _ (not_mem_append_cons hdot_a (by decide) hdot_b)
  have hc2d1 : commaToDot (a ++ ',' :: b) = a ++ '.' :: b := by
    rw [commaToDot_append, commaToDot_of_dig hda, commaToDot_comma_cons,
      commaToDot_of_dig hdb]
  have hfc1 : (a ++ ',' :: b).filter (· ≠ ',') = a ++ b := by
    rw [List.filter_append, filter_ne_of_dig hda (by decide)]
    congr 1
    rw [show List.filter (· ≠ ',') (',' :: b) = List.filter (· ≠ ',') b by
      simp]
    exact filter_ne_of_dig hdb (by decide)
  have hsp1 : splitSep ',' (a ++ ',' :: b) = [a, b] := by
    rw [splitSep_append ',' a b hcom_a, splitSep_not_mem ',' b hcom_b]
  -- facts for the period-only shape
  have hk2 : (a ++ '.' :: b).filter keepPriceChar = a ++ '.' :: b :=
    filter_keep_of_digits_seps (sep_shape2 hda hdb (Or.inl rfl))
  have hie2 : (a ++ '.' :: b).isEmpty = false := isEmpty_append_cons a '.' b
  have hcm2 : (a ++ '.' :: b).contains ',' = false :=
    contains_eq_false _ _ (not_mem_append_cons hcom_a (by decide) hcom_b)
  have hdt2 : (a ++ '.' :: b).contains '.' = true :=
    (contains_eq_true_iff _ _).mpr
      (List.mem_append.mpr (Or.inr (List.mem_cons_self '.' b)))
  have hfd2 : (a ++ '.' :: b).filter (· ≠ '.') = a ++ b := by
    rw [List.filter_append, filter_ne_of_dig hda (by decide)]
    congr 1
    rw [show List.filter (· ≠ '.') ('.' :: b) = List.filter (· ≠ '.') b by
      simp]
    exact filter_ne_of_dig hdb (by decide)
  have hsp2 : splitSep '.' (a ++ '.' :: b) = [a, b] := by
    rw [splitSep_append '.' a b hdot_a, splitSep_not_mem '.' b hdot_b]
  -- facts for the euro shape (period then comma)
  have hk3 : (a ++ '.' :: (b ++ ',' :: c)).filter keepPriceChar =
      a ++ '.' :: (b ++ ',' :: c) :=
    filter_keep_of_digits_seps
      (sep_shape3 hda hdb hdc (Or.inl rfl) (Or.inr rfl))
  have hie3 : (a ++ '.' :: (b ++ ',' :: c)).isEmpty = false :=
    isEmpty_append_cons a '.' (b ++ ',' :: c)
  have hcm3 : (a ++ '.' :: (b ++ ',' :: c)).contains ',' = true :=
    (contains_eq_true_iff _ _).mpr
      (List.mem_append.mpr (Or.inr (List.mem_cons_of_mem '.'
        (List.mem_append.mpr (Or.inr (List.mem_cons_self ',' c))))))
  have hdt3 : (a ++ '.' :: (b ++ ',' :: c)).contains '.' = true :=
    (contains_eq_true_iff _ _).mpr
      (List.mem_append.mpr (Or.inr (List.mem_cons_self '.' _)))
  have hrm3 : rightmostSepIsComma (a ++ '.' :: (b ++ ',' :: c)) = true := by
    unfold rightmostSepIsComma
    have hrev : (a ++ '.' :: (b ++ ',' :: c)).reverse =
        c.reverse ++ ',' :: (b.reverse ++ '.' :: a.reverse) := by
      simp
    rw [hrev, List.find?_append, find_sep_of_dig (all_dig_reverse hdc)]
    rfl
  have hfd3 : (a ++ '.' :: (b ++ ',' :: c)).filter (· ≠ '.') =
      a ++ (b ++ ',' :: c) := by
    rw [List.filter_append, filter_ne_of_dig hda (by decide)]
    congr 1
    rw [show List.filter (· ≠ '.') ('.' :: (b ++ ',' :: c)) =
        List.filter (· ≠ '.') (b ++ ',' :: c) by simp]
    rw [List.filter_append, filter_ne_of_dig hdb (by decide)]
    congr 1
    rw [show List.filter (· ≠ '.') (',' :: c) =
        ',' :: List.filter (· ≠ '.') c by simp]
    rw [filter_ne_of_dig hdc (by decide)]
  have hc2d3 : commaToDot (a ++ (b ++ ',' :: c)) = (a ++ b) ++ '.' :: c := by
    rw [commaToDot_append, commaToDot_of_dig hda, commaToDot_append,
      commaToDot_of_dig hdb, commaToDot_comma_cons, commaToDot_of_dig hdc,
      ← List.append_assoc]
  -- facts for the US shape (comma then period)
  have hk4 : (a ++ ',' :: (b ++ '.' :: c)).filter keepPriceChar =
      a ++ ',' :: (b ++ '.' :: c) :=
    filter_keep_of_digits_seps
      (sep_shape3 hda hdb hdc (Or.inr rfl) (Or.inl rfl))
  have hie4 : (a ++ ',' :: (b ++ '.' :: c)).isEmpty = false :=
    isEmpty_append_cons a ',' (b ++ '.' :: c)
  have hcm4 : (a ++ ',' :: (b ++ '.' :: c)).contains ',' = true :=
    (contains_eq_true_iff _ _).mpr
      (List.mem_append.mpr (Or.inr (List.mem_cons_self ',' _)))
  have hdt4 : (a ++ ',' :: (b ++ '.' :: c)).contains '.' = true :=
    (contains_eq_true_iff _ _).mpr
      (List.mem_append.mpr (Or.inr (List.mem_cons_of_mem ','
        (List.mem_append.mpr (Or.inr (List.mem_cons_self '.' c))))))
  have hrm4 : rightmostSepIsComma (a ++ ',' :: (b ++ '.' :: c)) = false := by
    unfold rightmostSepIsComma
    have hrev : (a ++ ',' :: (b ++ '.' :: c)).reverse =
        c.reverse ++ '.' :: (b.reverse ++ ',' :: a.reverse) := by
      simp
    rw [hrev, List.find?_append, find_sep_of_dig (all_dig_reverse hdc)]
    rfl
  have hfc4 : (a ++ ',' :: (b ++ '.' :: c)).filter (· ≠ ',') =
      a ++ (b ++ '.' :: c) := by
    rw [List.filter_append, filter_ne_of_dig hda (by decide)]
    congr 1
    rw [show List.filter (· ≠ ',') (',' :: (b ++ '.' :: c)) =
        List.filter (· ≠ ',') (b ++ '.' :: c) by simp]
    rw [List.filter_append, filter_ne_of_dig hdb (by decide)]
    congr 1
    rw [show List.filter (· ≠ ',') ('.' :: c) =
        '.' :: List.filter (· ≠ ',') c by simp]
    rw [filter_ne_of_dig hdc (by decide)]
  have hdigU : ∀ ch, isDig ch = true → ch ≠ 'U' :=
    fun ch h => ne_of_dig h (by decide)
  have hdigWsF : ∀ ch, isDig ch = true → isWs ch = false :=
    fun ch h => dig_not_ws h
  have hdigDash : ∀ ch, isDig ch = true → ch ≠ '-' :=
    fun ch h => ne_of_dig h (by decide)
  have hdigTail : ∀ ch, isDig ch = true →
      ch ≠ '-' ∧ ch ≠ '+' ∧ isWs ch = false :=
    fun ch h => ⟨ne_of_dig h (by decide), ne_of_dig h (by decide),
      dig_not_ws h⟩
  have hdbc : (b ++ c).all isDig = true := by
    rw [List.all_append, hdb, hdc]
    rfl
  have hneS1 : a ++ ',' :: b ≠ [] :=
    fun h => hna (List.append_eq_nil.mp h).1
  have hneS2 : a ++ '.' :: b ≠ [] :=
    fun h => hna (List.append_eq_nil.mp h).1
  have hneS3 : a ++ '.' :: (b ++ ',' :: c) ≠ [] :=
    fun h => hna (List.append_eq_nil.mp h).1
  have hneS4 : a ++ ',' :: (b ++ '.' :: c) ≠ [] :=
    fun h => hna (List.append_eq_nil.mp h).1
  have hfS1 : (a ++ ',' :: b).filter (· ≠ '.') = a ++ ',' :: b := by
    rw [List.filter_eq_self]
    intro ch hch
    exact decide_eq_true (forall_shape2 hda hdb
      (fun x hx => ne_of_dig hx (by decide)) (by decide) ch hch)
  have hfS4 : (a ++ ',' :: (b ++ '.' :: c)).filter (· ≠ '.') =
      a ++ ',' :: (b ++ c) := by
    rw [List.filter_append, filter_ne_of_dig hda (by decide)]
    congr 1
    rw [show List.filter (· ≠ '.') (',' :: (b ++ '.' :: c)) =
        ',' :: List.filter (· ≠ '.') (b ++ '.' :: c) by simp]
    congr 1
    rw [List.filter_append, filter_ne_of_dig hdb (by decide)]
    congr 1
    rw [show List.filter (· ≠ '.') ('.' :: c) = List.filter (· ≠ '.') c by
      simp]
    exact filter_ne_of_dig hdc (by decide)
  have hc2dS4 : commaToDot (a ++ ',' :: (b ++ c)) = a ++ '.' :: (b ++ c) := by
    rw [commaToDot_append, commaToDot_of_dig hda, commaToDot_comma_cons,
      commaToDot_of_dig hdbc]
  have hv_a_bc : pyFloatOrZero (a ++ '.' :: (b ++ c)) =
      (natVal a : ℚ) + (natVal (b ++ c) : ℚ) / (10 : ℚ) ^ (b ++ c).length := by
    unfold pyFloatOrZero
    rw [pyFloat_dot hna hda hdbc]
    rfl
  refine ⟨?_, ?_, ?_, ?_, ?_, ?_, ?_, ?_, ?_, ?_, ?_, ?_, ?_, ?_, ?_, ?_,
    ?_, ?_, ?_, ?_⟩
  · rw [priority_extract_eq _ hk1, hie1, hcm1, hdt1,
      if_neg fneq, show (true && false) = false from rfl, if_neg fneq,
      if_pos rfl, hc2d1, hv_ab]
  · rw [rh_extract_eq _ hk1, hie1, hcm1, hdt1,
      if_neg fneq, show (true && false) = false from rfl, if_neg fneq,
      if_pos rfl, hsp1]
    simp only [show (([a, b] : List (List Char)).getD 1 []) = b from rfl,
      show (([a, b] : List (List Char)).getD 0 []) = a from rfl,
      show (decide (([a, b] : List (List Char)).length = 2)) = true from rfl,
      Bool.true_and]
    by_cases hb2 : b.length ≤ 2
    · rw [decide_eq_true hb2, if_pos rfl, if_pos hb2, hc2d1, hv_ab]
    · rw [decide_eq_false hb2, if_neg fneq, if_neg hb2]
      by_cases hb3 : b.length = 3
      · rw [decide_eq_true hb3, if_pos rfl]
        by_cases ha3 : a.length ≤ 3
        · rw [if_pos ha3, hfc1, hv_th, if_pos ⟨hb3, ha3⟩]
        · rw [if_neg ha3, hc2d1, hv_ab,
            if_neg (fun h : b.length = 3 ∧ a.length ≤ 3 => ha3 h.2),
            if_pos hb3]
      · rw [decide_eq_false hb3, if_neg fneq, hfc1, hv_th,
          if_neg (fun h : b.length = 3 ∧ a.length ≤ 3 => hb3 h.1),
          if_neg hb3]
  · rw [priority_extract_eq _ hk2, hie2, hcm2, hdt2,
      if_neg fneq, show (false && true) = false from rfl, if_neg fneq,
      if_neg fneq, if_pos rfl, hsp2]
    simp only [show (([a, b] : List (List Char)).getD 1 []) = b from rfl,
      show (decide (([a, b] : List (List Char)).length = 2)) = true from rfl,
      Bool.true_and]
    by_cases hb2 : b.length ≤ 2
    · rw [decide_eq_true hb2, if_pos rfl, if_pos hb2, hv_ab]
    · rw [decide_eq_false hb2, if_neg fneq, if_neg hb2, hfd2, hv_th]
  · rw [rh_extract_eq _ hk2, hie2, hcm2, hdt2,
      if_neg fneq, show (false && true) = false from rfl, if_neg fneq,
      if_neg fneq, if_pos rfl, hsp2]
    simp only [show (([a, b] : List (List Char)).getD 1 []) = b from rfl,
      show (decide (([a, b] : List (List Char)).length = 2)) = true from rfl,
      Bool.true_and]
    by_cases hb2 : b.length ≤ 2
    · rw [decide_eq_true hb2, if_pos rfl, if_pos hb2, hv_ab]
    · rw [decide_eq_false hb2, if_neg fneq, if_neg hb2, hfd2, hv_th]
  · rw [priority_extract_eq _ hk3, hie3, hcm3, hdt3,
      if_neg fneq, show (true && true) = true from rfl, if_pos rfl, hrm3,
      if_pos rfl, hfd3, hc2d3, hv_abc]
  · rw [rh_extract_eq _ hk3, hie3, hcm3, hdt3,
      if_neg fneq, show (true && true) = true from rfl, if_pos rfl, hrm3,
      if_pos rfl, hfd3, hc2d3, hv_abc]
  · rw [priority_extract_eq _ hk4, hie4, hcm4, hdt4,
      if_neg fneq, show (true && true) = true from rfl, if_pos rfl, hrm4,
      if_neg fneq, hfc4, ← List.append_assoc, hv_abc]
  · rw [rh_extract_eq _ hk4, hie4, hcm4, hdt4,
      if_neg fneq, show (true && true) = true from rfl, if_pos rfl, hrm4,
      if_neg fneq, hfc4, ← List.append_assoc, hv_abc]
  · rw [clean_number_eq _ hneS1
        (forall_shape2 hda hdb hdigU (by decide))
        (forall_shape2 hda hdb hdigWsF (by decide)),
      hcm1, if_pos rfl, hfS1, hc2d1,
      dash_step_of_no_dash _ (forall_shape2 hda hdb hdigDash (by decide)),
      pyDecimal_no_sign _ (forall_shape2 hda hdb hdigTail
        ⟨by decide, by decide, by decide⟩)]
    exact hv_ab
  · rw [clean_number_eq _ hneS2
        (forall_shape2 hda hdb hdigU (by decide))
        (forall_shape2 hda hdb hdigWsF (by decide)),
      hcm2, if_neg fneq,
      dash_step_of_no_dash _ (forall_shape2 hda hdb hdigDash (by decide)),
      pyDecimal_no_sign _ (forall_shape2 hda hdb hdigTail
        ⟨by decide, by decide, by decide⟩)]
    exact hv_ab
  · rw [clean_number_eq _ hneS3
        (forall_shape3 hda hdb hdc hdigU (by decide) (by decide))
        (forall_shape3 hda hdb hdc hdigWsF (by decide) (by decide)),
      hcm3, if_pos rfl, hfd3, hc2d3,
      dash_step_of_no_dash _ (forall_shape2 hdab hdc hdigDash (by decide)),
      pyDecimal_no_sign _ (forall_shape2 hdab hdc hdigTail
        ⟨by decide, by decide, by decide⟩)]
    exact hv_abc
  · rw [clean_number_eq _ hneS4
        (forall_shape3 hda hdb hdc hdigU (by decide) (by decide))
        (forall_shape3 hda hdb hdc hdigWsF (by decide) (by decide)),
      hcm4, if_pos rfl, hfS4, hc2dS4,
      dash_step_of_no_dash _ (forall_shape2 hda hdbc hdigDash (by decide)),
      pyDecimal_no_sign _ (forall_shape2 hda hdbc hdigTail
        ⟨by decide, by decide, by decide⟩)]
    exact hv_a_bc
  · rw [show PriorityAPI.extract_numeric_price "USD 7.157,16" =
        ((natVal ['7', '1', '5', '7'] : ℚ) +
          (natVal ['1', '6'] : ℚ) / (10 : ℚ) ^ (2 : ℕ)) from rfl,
      show natVal ['7', '1', '5', '7'] = 7157 from rfl,
      show natVal ['1', '6'] = 16 from rfl]
    norm_num
  · rw [show ResponseHandler.extract_numeric_price "USD 7.157,16" =
        ((natVal ['7', '1', '5', '7'] : ℚ) +
          (natVal ['1', '6'] : ℚ) / (10 : ℚ) ^ (2 : ℕ)) from rfl,
      show natVal ['7', '1', '5', '7'] = 7157 from rfl,
      show natVal ['1', '6'] = 16 from rfl]
    norm_num
  · rw [show PriorityAPI.extract_numeric_price "USD 1,234.56" =
        ((natVal ['1', '2', '3', '4'] : ℚ) +
          (natVal ['5', '6'] : ℚ) / (10 : ℚ) ^ (2 : ℕ)) from rfl,
      show natVal ['1', '2', '3', '4'] = 1234 from rfl,
      show natVal ['5', '6'] = 56 from rfl]
    norm_num
  · rw [show ResponseHandler.extract_numeric_price "USD 1,234.56" =
        ((natVal ['1', '2', '3', '4'] : ℚ) +
          (natVal ['5', '6'] : ℚ) / (10 : ℚ) ^ (2 : ℕ)) from rfl,
      show natVal ['1', '2', '3', '4'] = 1234 from rfl,
      show natVal ['5', '6'] = 56 from rfl]
    norm_num
  · rw [show PriorityAPI.extract_numeric_price "USD 129,00" =
        ((natVal ['1', '2', '9'] : ℚ) +
          (natVal ['0', '0'] : ℚ) / (10 : ℚ) ^ (2 : ℕ)) from rfl,
      show natVal ['1', '2', '9'] = 129 from rfl,
      show natVal ['0', '0'] = 0 from rfl]
    norm_num
  · rw [show ResponseHandler.extract_numeric_price "USD 129,00" =
        ((natVal ['1', '2', '9'] : ℚ) +
          (natVal ['0', '0'] : ℚ) / (10 : ℚ) ^ (2 : ℕ)) from rfl,
      show natVal ['1', '2', '9'] = 129 from rfl,
      show natVal ['0', '0'] = 0 from rfl]
    norm_num
  · rw [show OrderValidator.clean_number "USD 7.157,16" =
        ((natVal ['7', '1', '5', '7'] : ℚ) +
          (natVal ['1', '6'] : ℚ) / (10 : ℚ) ^ (2 : ℕ)) from rfl,
      show natVal ['7', '1', '5', '7'] = 7157 from rfl,
      show natVal ['1', '6'] = 16 from rfl]
    norm_num
  · rw [show OrderValidator.clean_number "USD 129,00" =
        ((natVal ['1', '2', '9'] : ℚ) +
          (natVal ['0', '0'] : ℚ) / (10 : ℚ) ^ (2 : ℕ)) from rfl,
      show natVal ['1', '2', '9'] = 129 from rfl,
      show natVal ['0', '0'] = 0 from rfl]
    norm_num

/-- Witness for the amended C4: the comma of 1,234 is read as a decimal
point by the priority_api extractor. -/
theorem separator_resolution_rules_witness :
    PriorityAPI.extract_numeric_price
        (String.mk (['1'] ++ ',' :: ['2', '3', '4'])) =
      (natVal ['1'] : ℚ) +
        (natVal ['2', '3', '4'] : ℚ) /
          (10 : ℚ) ^ (['2', '3', '4'] : List Char).length :=
  (separator_resolution_rules ['1'] ['2', '3', '4'] ['5']
    (by decide) (by decide) (by decide)
    (by decide) (by decide) (by decide)).1

/-- Two-character day and month fields are digit strings. -/
theorem fmt2_all_dig : ∀ n, n < 100 → (fmt2 n).all isDig = true := by decide

/-- Two-character fields are nonempty. -/
theorem fmt2_ne_nil : ∀ n, n < 100 → fmt2 n ≠ [] := by decide

/-- Two-character fields read back to their value. -/
theorem fmt2_natVal : ∀ n, n < 100 → natVal (fmt2 n) = n := by decide

/-- Two-character fields have length two. -/
theorem fmt2_len : ∀ n, n < 100 → (fmt2 n).length = 2 := by decide

/-- Four-character year fields are digit strings. -/
theorem fmt4_all_dig (n : ℕ) (h : n ≤ 9999) : (fmt4 n).all isDig = true := by
  unfold fmt4
  rw [List.all_append, fmt2_all_dig (n / 100) (by omega),
    fmt2_all_dig (n % 100) (by omega)]
  rfl

/-- Four-character year fields are nonempty. -/
theorem fmt4_ne_nil (n : ℕ) (hn : n ≤ 9999) : fmt4 n ≠ [] := by
  unfold fmt4
  intro h
  exact fmt2_ne_nil (n / 100) (by omega) (List.append_eq_nil.mp h).1

/-- Four-character year fields read back to their value. -/
theorem fmt4_natVal (n : ℕ) (h : n ≤ 9999) : natVal (fmt4 n) = n := by
  unfold fmt4
  rw [natVal_append, fmt2_natVal (n / 100) (by omega),
    fmt2_natVal (n % 100) (by omega), fmt2_len (n % 100) (by omega),
    show (10 : ℕ) ^ 2 = 100 by norm_num]
  omega

/-- Every month is at most 31 days long. -/
theorem monthLength_le (y m : ℕ) : monthLength y m ≤ 31 := by
  unfold monthLength
  split <;> first
    | omega
    | (split <;> omega)

/-- Parsing a formatted DD.MM.YYYY date recovers its components. -/
theorem parseDeliveryDate_format (y m d : ℕ)
    (hy1 : 1 ≤ y) (hy : y ≤ 9999) (hm1 : 1 ≤ m) (hm : m ≤ 12)
    (hd1 : 1 ≤ d) (hd : d ≤ monthLength y m) :
    parseDeliveryDate (formatDotDate d m y) = some (y, m, d) := by
  have hd100 : d < 100 := by
    have := monthLength_le y m
    omega
  have hm100 : m < 100 := by omega
  have hdata : (formatDotDate d m y).data =
      fmt2 d ++ '.' :: (fmt2 m ++ '.' :: fmt4 y) := rfl
  have hdotd : '.' ∉ fmt2 d :=
    not_mem_of_all_dig (fmt2_all_dig d hd100) (by decide)
  have hdotm : '.' ∉ fmt2 m :=
    not_mem_of_all_dig (fmt2_all_dig m hm100) (by decide)
  have hdoty : '.' ∉ fmt4 y :=
    not_mem_of_all_dig (fmt4_all_dig y hy) (by decide)
  have hdot : (formatDotDate d m y).data.contains '.' = true := by
    rw [hdata]
    exact (contains_eq_true_iff _ _).mpr
      (List.mem_append.mpr (Or.inr (List.mem_cons_self '.' _)))
  unfold parseDeliveryDate
  rw [hdata] at hdot ⊢
  rw [hdot, if_pos rfl, splitSep_append '.' _ _ hdotd,
    splitSep_append '.' _ _ hdotm, splitSep_not_mem '.' _ hdoty]
  dsimp only
  rw [pyIntList_digits (fmt4_ne_nil y hy) (fmt4_all_dig y hy),
    pyIntList_digits (fmt2_ne_nil m hm100) (fmt2_all_dig m hm100),
    pyIntList_digits (fmt2_ne_nil d hd100) (fmt2_all_dig d hd100),
    fmt4_natVal y hy, fmt2_natVal m hm100, fmt2_natVal d hd100]
  dsimp only
  rw [if_pos ?hcond]
  case hcond =>
    simp only [Bool.and_eq_true, decide_eq_true_eq, Int.toNat_natCast]
    refine ⟨⟨⟨⟨⟨?_, ?_⟩, ?_⟩, ?_⟩, ?_⟩, ?_⟩ <;> omega
  simp only [Int.toNat_natCast]

/-- Ordinals of dates in the years from 1001 on are large. -/
theorem toOrdinal_lb (y m d : ℕ) (hy : 1001 ≤ y) :
    (364000 : ℤ) ≤ toOrdinal y m d := by
  unfold toOrdinal
  have h1 : 364000 ≤ daysBeforeYear y := by
    unfold daysBeforeYear
    omega
  have h4 : 364000 ≤ daysBeforeYear y + daysBeforeMonth y m + d := by omega
  exact_mod_cast h4

/-- C6: for every valid delivery date (kept to four-digit years so the
strftime formatting below is the Python one) and every address,
calculate_priority_date first subtracts six days; when the address
contains both 12 Bet and the abbreviation St. it lands on the Thursday
of the same Monday-started week as the subtracted date (and an already-
Thursday date is unchanged); otherwise a Saturday moves back one day to
Friday and any other weekday is used as is. -/
theorem calculate_priority_date_rule (y m d : ℕ) (addr : String)
    (hy1 : 1001 ≤ y) (hy : y ≤ 9999) (hm1 : 1 ≤ m) (hm : m ≤ 12)
    (hd1 : 1 ≤ d) (hd : d ≤ monthLength y m) :
    (PriorityAPI.calculate_priority_date (formatDotDate d m y) addr =
      formatSlashFromOrdinal
        (if strContains addr "12 Bet" && strContains addr "St." then
          thursdayOfWeek (toOrdinal y m d - 6)
         else if weekdayM (toOrdinal y m d - 6) = 5 then
          toOrdinal y m d - 6 - 1
         else toOrdinal y m d - 6)) ∧
    (weekdayM (toOrdinal y m d - 6) = 3 →
      thursdayOfWeek (toOrdinal y m d - 6) = toOrdinal y m d - 6) := by
  have hlb : (364000 : ℤ) ≤ toOrdinal y m d := toOrdinal_lb y m d hy1
  constructor
  · unfold PriorityAPI.calculate_priority_date
    rw [parseDeliveryDate_format y m d (by omega) hy hm1 hm hd1 hd]
    dsimp only
    rw [if_neg (show ¬(toOrdinal y m d - 6 < 1) by omega)]
    by_cases hsp : (strContains addr "12 Bet" && strContains addr "St.") =
        true
    · rw [if_pos hsp, if_pos hsp,
        if_neg (show ¬(thursdayOfWeek (toOrdinal y m d - 6) < 1) by
          unfold thursdayOfWeek weekdayM
          omega)]
    · rw [if_neg hsp, if_neg hsp]
      by_cases hsat : weekdayM (toOrdinal y m d - 6) = 5
      · rw [if_pos hsat, if_pos hsat]
      · rw [if_neg hsat, if_neg hsat]
  · intro h3
    unfold thursdayOfWeek
    rw [h3]
    ring

/-- Witness for C6 at the spec test vector: delivery date 10.01.2025
with a plain address. -/
theorem calculate_priority_date_rule_witness :
    (PriorityAPI.calculate_priority_date (formatDotDate 10 1 2025)
        "Somewhere" =
      formatSlashFromOrdinal
        (if strContains "Somewhere" "12 Bet" && strContains "Somewhere" "St."
          then thursdayOfWeek (toOrdinal 2025 1 10 - 6)
         else if weekdayM (toOrdinal 2025 1 10 - 6) = 5 then
          toOrdinal 2025 1 10 - 6 - 1
         else toOrdinal 2025 1 10 - 6)) ∧
    (weekdayM (toOrdinal 2025 1 10 - 6) = 3 →
      thursdayOfWeek (toOrdinal 2025 1 10 - 6) = toOrdinal 2025 1 10 - 6) :=
  calculate_priority_date_rule 2025 1 10 "Somewhere" (by norm_num)
    (by norm_num) (by norm_num) (by norm_num) (by norm_num) (by decide)

end OrderEngine
